import Mathlib

/-!
# kithix/stoppable: a verification development

Shallow embedding of `stoppable.go` (the task runner), `watcher/watcher.go`
(the supervisor of package `watcher`) and `watcher.go` (the older supervisor
of the root package).

Modelling conventions.

* A Go `error` interface value is `Err = Option GoError`; `none` is `nil`.
  A non-nil error has a dynamic type, an identity (what `==` compares: the
  address, for a pointer such as the `*errorString` made by `errors.New`) and a
  message (what `Error()` returns).  A caller's callback may return an error of
  any dynamic type, also of one whose values cannot be compared (a slice type,
  a struct type with a slice field).
* A comparison of an `error` with `nil` never fails.  The comparison of two
  non-nil `error` values of one and the same dynamic type panics at run time
  when that type is not comparable; `errNe` is that comparison.  The only such
  comparison in the source is `teardownErr != doingErr` in `watcher`.
* A callback `func() error` supplied by the caller is a total function on the
  caller's own state `σ`.  Every invocation of a caller's callback is recorded
  in a ghost log together with the value it returned.
* A goroutine is a record of its local variables together with a program
  counter; one call of its `step` function executes up to its next
  communication.  A goroutine parked on a channel operation does not move.
* A run-time panic and a goroutine parked for ever are the two faults.
* The mutex of a supervisor is held across the whole body of `Start`, of `Stop`
  and of the resolution in `watcher`; each of them is one atomic function here.
  While `Close` is parked at its receive inside such a body, the task goroutine
  of the handle is the only goroutine it waits for, and it is run from there.
  The task goroutine launched by `Open` inside `start` cannot complete a send on
  the failure channel before the `watcher` goroutine of that channel exists, so
  spawning both in one step loses no behaviour.
* An interleaving of a supervisor is a list of scheduling decisions: an
  external `Start`, an external `Stop`, one step of the task goroutine of the
  owned handle, or a run of the `watcher` goroutine of one channel.  A `watcher`
  goroutine that has received a value but not yet taken the lock is a state of
  its own, so other decisions can come in between.
* `errors.New` takes its address from a counter in the world; the package
  variables have fixed addresses.  Nothing below relies on the addresses of the
  errors a caller returns being different from these.
-/

namespace Stoppable

/-- The dynamic type of a non-nil `error` value, as far as `==` on interface
values looks at it: which type it is, and whether two values of it can be
compared.  `comparable` is true for a type whose values always compare without
panic (a pointer, a string, a number, a struct of these) and false for a type
that is not comparable (a slice, a map, a function, a struct or array holding
one), on which `==` panics.  A type on which `==` panics for some pairs of
values only (a struct with a field of interface type) is neither. -/
structure GoType where
  name : String
  comparable : Bool
deriving DecidableEq, Repr

/-- The type `*errors.errorString` of the values made by `errors.New`. -/
def errorString : GoType := ⟨"*errors.errorString", true⟩

/-- A non-nil Go error value: identity under `==` (for a pointer, its address),
message and dynamic type. -/
structure GoError where
  addr : Nat
  msg : String
  typ : GoType
deriving DecidableEq, Repr

/-- The Go interface type `error`; `none` is `nil`. -/
abbrev Err := Option GoError

/-- The method `Error()` of an `errorString`. -/
def GoError.Error (e : GoError) : String := e.msg

/-- The struct `WatcherError` (watcher/watcher.go:125-129 and watcher.go:122-126). -/
structure WatcherError where
  Do : Err
  Teardown : Err
  Setup : Err
deriving DecidableEq, Repr

/-- The three lifecycle callbacks of a caller. -/
inductive Hook
  | setup
  | do_
  | teardown
deriving DecidableEq, Repr

/-- Ghost log entries: a caller's callback returned `res`, or the restart
handler was handed `r` and answered `ret`. -/
inductive Event
  | call (h : Hook) (res : Err)
  | policy (r : WatcherError) (ret : Bool)
deriving DecidableEq, Repr

/-- What can go wrong at run time. -/
inductive Fault
  | nilDereference
  | closeOfClosedChannel
  | sendOnClosedChannel
  | deadlock
  | uncomparableType
deriving DecidableEq, Repr

/-- Control state of one `watcher` goroutine (watcher/watcher.go:47-83). -/
inductive MonPc
  | unspawned
  | receiving
  | received (doingErr : Err)
  | finished
deriving DecidableEq, Repr

/-- One `interceptedStopping` channel (made by `doWrapper`) together with the
`watcher` goroutine bound to it. -/
structure Chan where
  closed : Bool
  mon : MonPc
deriving DecidableEq, Repr

/-- Everything the callbacks can touch: the caller's state, the ghost log, the
allocator used by `errors.New`, and the failure channels made so far. -/
structure World (σ : Type) where
  user : σ
  log : List Event
  nextAddr : Nat
  chans : List Chan

abbrev Exec (α : Type) := Except Fault α

/-- A `func() error` as the task runner sees it. -/
abbrev Callback (σ : Type) := World σ → Exec (Err × World σ)

/-- A caller's `func() error`, with its invocation logged. -/
def invoke {σ : Type} (h : Hook) (f : σ → Err × σ) : Callback σ := fun w =>
  .ok ((f w.user).1, { w with user := (f w.user).2, log := w.log ++ [Event.call h (f w.user).1] })

/-- The comparison `a != b` of two `error` interface values.  Two interface
values are equal when both are nil, or when their dynamic types are identical
and their dynamic values are equal; when the dynamic types are identical and
that type is not comparable, the comparison panics. -/
def errNe (a b : Err) : Exec Bool :=
  match a, b with
  | none, none => .ok false
  | some x, some y =>
    if x.typ = y.typ then
      if x.typ.comparable then .ok (decide (x ≠ y)) else .error .uncomparableType
    else .ok true
  | _, _ => .ok true

/-- The library function `errors.New`: a fresh pointer. -/
def errorsNew {σ : Type} (msg : String) (w : World σ) : GoError × World σ :=
  (⟨w.nextAddr, msg, errorString⟩, { w with nextAddr := w.nextAddr + 1 })

/-- The package variable `ErrAlreadyClosed` (stoppable.go:11). -/
def ErrAlreadyClosed : GoError := ⟨0, "Already closed", errorString⟩

/-- The package variable `DoesNothing` (stoppable.go:15). -/
def DoesNothing {σ : Type} : Callback σ := fun w => .ok (none, w)

/-- Program points of the closure returned by `newTask` (stoppable.go:48-83). -/
inductive Pc
  | setup        -- before `err = setup()` (line 54)
  | sendSetup    -- parked at `stopping <- err` (line 56)
  | loop         -- at the head of `for doing` (line 59)
  | teardown     -- before `tearDownErr := teardown()` (line 72)
  | send         -- parked at `stopping <- err` (line 81)
  | returned     -- after `return`; the deferred `close(stopping)` has run
deriving DecidableEq, Repr

/-- The closure returned by `newTask` with the locals `err` and `doing` of the
goroutine that runs it. -/
structure Task (σ : Type) where
  setup : Callback σ
  do_ : Callback σ
  teardown : Callback σ
  pc : Pc
  err : Err
  doing : Bool

/-- The function `newTask` (stoppable.go:47-84): `var err error`, `var doing = true`. -/
def newTask {σ : Type} (setup do_ teardown : Callback σ) : Task σ :=
  { setup := setup, do_ := do_, teardown := teardown, pc := .setup, err := none, doing := true }

/-- One step of the goroutine running the task; `stopperClosed` tells whether
`<-stopper` is ready. -/
def Task.step {σ : Type} (stopperClosed : Bool) (t : Task σ) (w : World σ) :
    Exec (Task σ × World σ) :=
  match t.pc with
  | .setup =>
    match t.setup w with
    | .error f => .error f
    | .ok (e, w1) =>
      if e ≠ none then .ok ({ t with err := e, pc := .sendSetup }, w1)
      else .ok ({ t with err := e, pc := .loop }, w1)
  | .loop =>
    if t.doing then
      if stopperClosed then
        -- case <-stopper:
        .ok ({ t with doing := false }, w)
      else
        -- default:
        match t.do_ w with
        | .error f => .error f
        | .ok (e, w1) =>
          if e ≠ none then .ok ({ t with err := e, doing := false }, w1)
          else .ok ({ t with err := e }, w1)
    else .ok ({ t with pc := .teardown }, w)
  | .teardown =>
    match t.teardown w with
    | .error f => .error f
    | .ok (tearDownErr, w1) =>
      match tearDownErr with
      | some td =>
        match t.err with
        | some e =>
          let r := errorsNew (e.Error ++ td.Error) w1
          .ok ({ t with err := some r.1, pc := .send }, r.2)
        | none => .ok ({ t with err := tearDownErr, pc := .send }, w1)
      | none => .ok ({ t with pc := .send }, w1)
  | .sendSetup => .ok (t, w)
  | .send => .ok (t, w)
  | .returned => .ok (t, w)

/-- The struct `Closer` (stoppable.go:21-28).  The channel `stopper` is open or
closed; the unbuffered channel `stopping` has the task goroutine as its only
sender, so its state is the task's program point. -/
structure Closer (σ : Type) where
  closed : Bool
  stopperClosed : Bool
  task : Task σ

/-- The scheduler lets the task goroutine of a handle run one step. -/
def Closer.run {σ : Type} (c : Closer σ) (w : World σ) : Exec (Closer σ × World σ) :=
  match c.task.step c.stopperClosed w with
  | .error f => .error f
  | .ok (t, w1) => .ok ({ c with task := t }, w1)

/-- The scheduler lets the task goroutine run `n` steps. -/
def Closer.runN {σ : Type} : Nat → Closer σ → World σ → Exec (Closer σ × World σ)
  | 0, c, w => .ok (c, w)
  | n + 1, c, w =>
    match c.run w with
    | .error f => .error f
    | .ok (c1, w1) => Closer.runN n c1 w1

/-- The receive `<-s.stopping` (stoppable.go:44): the caller is parked while the
task goroutine runs, until the task is parked at a send on `stopping` (the
value is handed over and the task returns, closing `stopping`) or `stopping`
is closed (the zero value is received).  Out of fuel means still parked. -/
def Closer.recvStopping {σ : Type} : Nat → Closer σ → World σ → Exec (Err × Closer σ × World σ)
  | 0, _, _ => .error .deadlock
  | fuel + 1, c, w =>
    match c.task.pc with
    | .sendSetup => .ok (c.task.err, { c with task := { c.task with pc := .returned } }, w)
    | .send => .ok (c.task.err, { c with task := { c.task with pc := .returned } }, w)
    | .returned => .ok (none, c, w)
    | _ =>
      match c.run w with
      | .error f => .error f
      | .ok (c1, w1) => Closer.recvStopping fuel c1 w1

/-- Steps the task goroutine can still take once `stopper` is closed, plus the
hand-over itself; see `recvStopping_fuel`. -/
def closeFuel : Nat := 5

/-- The method `Close` (stoppable.go:32-45).  The mutex makes the body atomic
with respect to other callers of `Close`. -/
def Closer.Close {σ : Type} (s : Closer σ) (w : World σ) : Exec (Err × Closer σ × World σ) :=
  if s.closed then .ok (some ErrAlreadyClosed, s, w)
  else if s.stopperClosed then .error .closeOfClosedChannel
  else
    match Closer.recvStopping closeFuel { s with stopperClosed := true } w with
    | .error f => .error f
    | .ok (err, s1, w1) => .ok (err, { s1 with closed := true }, w1)

/-- The function `Open` (stoppable.go:88-104).  The result is the pair
`(*Closer, error)`; `none` in the first component is the nil pointer. -/
def Open {σ : Type} (setup do_ teardown : Callback σ) (w : World σ) :
    Exec (Option (Closer σ) × Err × World σ) :=
  match setup w with
  | .error f => .error f
  | .ok (err, w1) =>
    if err ≠ none then .ok (none, err, w1)
    else
      .ok (some { closed := false, stopperClosed := false,
                  task := newTask DoesNothing do_ teardown }, none, w1)

/-! ## Channels shared by the two supervisors -/

/-- The statement `make(chan error)`: a new unbuffered channel; its index is its
identity.  No goroutine receives from it yet. -/
def chanMake {σ : Type} (w : World σ) : Nat × World σ :=
  (w.chans.length, { w with chans := w.chans ++ [{ closed := false, mon := .unspawned }] })

/-- The statement `interceptedStopping <- err`.  The channel is unbuffered: the
send completes by handing the value to the `watcher` goroutine parked at its
receive; with no receiver left the sender is parked for ever. -/
def chanSend {σ : Type} (i : Nat) (v : Err) (w : World σ) : Exec (World σ) :=
  match w.chans[i]? with
  | none => .error .deadlock
  | some ch =>
    if ch.closed then .error .sendOnClosedChannel
    else
      match ch.mon with
      | .receiving => .ok { w with chans := w.chans.set i { ch with mon := .received v } }
      | _ => .error .deadlock

/-- The statement `close(interceptedStopping)`. -/
def chanClose {σ : Type} (i : Nat) (w : World σ) : Exec (World σ) :=
  match w.chans[i]? with
  | none => .error .nilDereference
  | some ch =>
    if ch.closed then .error .closeOfClosedChannel
    else .ok { w with chans := w.chans.set i { ch with closed := true } }

/-- The statement `go w.watcher(interceptedStopping)`: the new goroutine parks at
its receive. -/
def spawnWatcher {σ : Type} (i : Nat) (w : World σ) : World σ :=
  match w.chans[i]? with
  | none => w
  | some ch => { w with chans := w.chans.set i { ch with mon := .receiving } }

/-- The `watcher` goroutine bound to channel `i` returns. -/
def finishWatcher {σ : Type} (i : Nat) (w : World σ) : World σ :=
  match w.chans[i]? with
  | none => w
  | some ch => { w with chans := w.chans.set i { ch with mon := .finished } }

/-- A restart handler `func(WatcherError) bool` of the caller. -/
abbrev Handler (σ : Type) := WatcherError → σ → Bool × σ

/-- A call of the restart handler, logged with its argument and its answer. -/
def callHandler {σ : Type} (h : Handler σ) (r : WatcherError) (w : World σ) : Bool × World σ :=
  ((h r w.user).1,
    { w with user := (h r w.user).2, log := w.log ++ [Event.policy r (h r w.user).1] })

/-- A value of the interface type `io.Closer` as stored in the field `closer`:
the nil interface, or an interface holding a `*Closer`, which may itself be the
nil pointer. -/
inductive IoCloser (σ : Type)
  | nil
  | closer (p : Option (Closer σ))

/-! ## The supervisor of the root package (watcher.go) -/

/-- The package variable `ErrAlreadyStarted` (watcher.go:11). -/
def ErrAlreadyStarted : GoError := ⟨1, "Already started", errorString⟩

/-- The package variable `ErrAlreadyStopped` (watcher.go:12). -/
def ErrAlreadyStopped : GoError := ⟨2, "Already stopped", errorString⟩

/-- The struct `Watcher` (watcher.go:19-24); the mutex is the atomicity of
`Start`, `Stop` and of the resolution in `watcher`. -/
structure Watcher (σ : Type) where
  setup : σ → Err × σ
  do_ : σ → Err × σ
  teardown : σ → Err × σ
  restartHandler : Option (Handler σ)
  closer : IoCloser σ

/-- The closure returned by `doWrapper` (watcher.go:28-36). -/
def wrappedDo {σ : Type} (interceptedStopping : Nat) (do_ : Callback σ) : Callback σ := fun w =>
  match do_ w with
  | .error f => .error f
  | .ok (err, w1) =>
    if err ≠ none then
      match chanSend interceptedStopping err w1 with
      | .error f => .error f
      | .ok w2 => .ok (err, w2)
    else .ok (err, w1)

/-- The function `doWrapper` (watcher.go:26-37): the new channel and the closure. -/
def doWrapper {σ : Type} (do_ : Callback σ) (w : World σ) : (Nat × Callback σ) × World σ :=
  let interceptedStopping := chanMake w
  ((interceptedStopping.1, wrappedDo interceptedStopping.1 do_), interceptedStopping.2)

/-- The function `teardownWrapper` (watcher.go:38-45). -/
def teardownWrapper {σ : Type} (interceptedStopping : Nat) (teardown : Callback σ) :
    Callback σ := fun w =>
  match teardown w with
  | .error f => .error f
  | .ok (err, w1) =>
    match chanClose interceptedStopping w1 with
    | .error f => .error f
    | .ok w2 => .ok (err, w2)

/-- The method `start` (watcher.go:85-99). -/
def Watcher.start {σ : Type} (wt : Watcher σ) (w : World σ) :
    Exec (Err × Watcher σ × World σ) :=
  match wt.closer with
  | .closer _ => .ok (some ErrAlreadyStarted, wt, w)
  | .nil =>
    let wrapped := doWrapper (invoke .do_ wt.do_) w
    let interceptedStopping := wrapped.1.1
    let wrappedDo := wrapped.1.2
    let wrappedTeardown := teardownWrapper interceptedStopping (invoke .teardown wt.teardown)
    match Open (invoke .setup wt.setup) wrappedDo wrappedTeardown wrapped.2 with
    | .error f => .error f
    | .ok (c, err, w1) =>
      -- w.closer, err = Open(w.setup, wrappedDo, wrappedTeardown)
      let wt1 : Watcher σ := { wt with closer := .closer c }
      if err ≠ none then
        -- close(interceptedStopping)
        match chanClose interceptedStopping w1 with
        | .error f => .error f
        | .ok w2 => .ok (err, wt1, w2)
      else
        -- go w.watcher(interceptedStopping)
        .ok (none, wt1, spawnWatcher interceptedStopping w1)

/-- The method `Start` (watcher.go:102-106). -/
def Watcher.Start {σ : Type} (wt : Watcher σ) (w : World σ) :
    Exec (Err × Watcher σ × World σ) :=
  wt.start w

/-- The method `stop` (watcher.go:108-114). -/
def Watcher.stop {σ : Type} (wt : Watcher σ) (w : World σ) :
    Exec (Err × Watcher σ × World σ) :=
  match wt.closer with
  | .nil => .ok (some ErrAlreadyStopped, wt, w)
  | .closer none => .error .nilDereference
  | .closer (some c) =>
    match c.Close w with
    | .error f => .error f
    | .ok (err, _, w1) => .ok (err, { wt with closer := .nil }, w1)

/-- The method `Stop` (watcher.go:116-120). -/
def Watcher.Stop {σ : Type} (wt : Watcher σ) (w : World σ) :
    Exec (Err × Watcher σ × World σ) :=
  wt.stop w

/-- The function `RestartOnDo` (watcher.go:150-155). -/
def RestartOnDo {σ : Type} : Handler σ := fun watcherErr u =>
  (if watcherErr.Teardown = none ∧ watcherErr.Setup = none then true else false, u)

/-- The function `NewWatchdog` (watcher.go:157-164). -/
def NewWatchdog {σ : Type} (setup do_ teardown : σ → Err × σ)
    (restartHandler : Option (Handler σ)) : Watcher σ :=
  { setup := setup, do_ := do_, teardown := teardown, restartHandler := restartHandler,
    closer := .nil }

/-! ## The supervisor of package `watcher` (watcher/watcher.go) -/

namespace watcher

/-- The package variable `ErrAlreadyStarted` (watcher/watcher.go:13). -/
def ErrAlreadyStarted : GoError := ⟨3, "Already started", errorString⟩

/-- The package variable `ErrAlreadyStopped` (watcher/watcher.go:14). -/
def ErrAlreadyStopped : GoError := ⟨4, "Already stopped", errorString⟩

/-- The struct `Watcher` (watcher/watcher.go:19-24); the mutex is the atomicity
of `Start`, `Stop` and of the resolution in `watcher`. -/
structure Watcher (σ : Type) where
  setup : σ → Err × σ
  do_ : σ → Err × σ
  teardown : σ → Err × σ
  restartHandler : Option (Handler σ)
  closer : IoCloser σ

/-- The closure returned by `doWrapper` (watcher/watcher.go:28-36). -/
def wrappedDo {σ : Type} (interceptedStopping : Nat) (do_ : Callback σ) : Callback σ := fun w =>
  match do_ w with
  | .error f => .error f
  | .ok (err, w1) =>
    if err ≠ none then
      match chanSend interceptedStopping err w1 with
      | .error f => .error f
      | .ok w2 => .ok (err, w2)
    else .ok (err, w1)

/-- The function `doWrapper` (watcher/watcher.go:26-37): the new channel and the closure. -/
def doWrapper {σ : Type} (do_ : Callback σ) (w : World σ) : (Nat × Callback σ) × World σ :=
  let interceptedStopping := chanMake w
  ((interceptedStopping.1, wrappedDo interceptedStopping.1 do_), interceptedStopping.2)

/-- The function `teardownWrapper` (watcher/watcher.go:38-45). -/
def teardownWrapper {σ : Type} (interceptedStopping : Nat) (teardown : Callback σ) :
    Callback σ := fun w =>
  match teardown w with
  | .error f => .error f
  | .ok (err, w1) =>
    match chanClose interceptedStopping w1 with
    | .error f => .error f
    | .ok w2 => .ok (err, w2)

/-- The method `start` (watcher/watcher.go:85-100). -/
def Watcher.start {σ : Type} (wt : Watcher σ) (w : World σ) :
    Exec (Err × Watcher σ × World σ) :=
  match wt.closer with
  | .closer _ => .ok (some ErrAlreadyStarted, wt, w)
  | .nil =>
    let wrapped := doWrapper (invoke .do_ wt.do_) w
    let interceptedStopping := wrapped.1.1
    let wrappedDo := wrapped.1.2
    let wrappedTeardown := teardownWrapper interceptedStopping (invoke .teardown wt.teardown)
    match Open (invoke .setup wt.setup) wrappedDo wrappedTeardown wrapped.2 with
    | .error f => .error f
    | .ok (c, err, w1) =>
      -- w.closer, err = stoppable.Open(w.setup, wrappedDo, wrappedTeardown)
      let wt1 : Watcher σ := { wt with closer := .closer c }
      if err ≠ none then
        -- w.closer = nil; close(interceptedStopping)
        match chanClose interceptedStopping w1 with
        | .error f => .error f
        | .ok w2 => .ok (err, { wt1 with closer := .nil }, w2)
      else
        -- go w.watcher(interceptedStopping)
        .ok (none, wt1, spawnWatcher interceptedStopping w1)

/-- The method `Start` (watcher/watcher.go:103-107). -/
def Watcher.Start {σ : Type} (wt : Watcher σ) (w : World σ) :
    Exec (Err × Watcher σ × World σ) :=
  wt.start w

/-- The method `stop` (watcher/watcher.go:109-115). -/
def Watcher.stop {σ : Type} (wt : Watcher σ) (w : World σ) :
    Exec (Err × Watcher σ × World σ) :=
  match wt.closer with
  | .nil => .ok (some ErrAlreadyStopped, wt, w)
  | .closer none => .error .nilDereference
  | .closer (some c) =>
    match c.Close w with
    | .error f => .error f
    | .ok (err, _, w1) => .ok (err, { wt with closer := .nil }, w1)

/-- The method `Stop` (watcher/watcher.go:118-122). -/
def Watcher.Stop {σ : Type} (wt : Watcher σ) (w : World σ) :
    Exec (Err × Watcher σ × World σ) :=
  wt.stop w

/-- The body of `watcher` after the receive (watcher/watcher.go:52-83), run
with the lock held, for the received value `doingErr`. -/
def Watcher.resolve {σ : Type} (doingErr : Err) (wt : Watcher σ) (w : World σ) :
    Exec (Watcher σ × World σ) :=
  if doingErr = none then .ok (wt, w)
  else
    match wt.stop w with
    | .error f => .error f
    | .ok (teardownErr, wt1, w1) =>
      -- teardownErr != nil && teardownErr != doingErr
      match (if teardownErr ≠ none then errNe teardownErr doingErr else .ok false) with
      | .error f => .error f
      | .ok differs =>
        let watcherErr : WatcherError :=
          if differs then { Do := doingErr, Teardown := teardownErr, Setup := none }
          else { Do := doingErr, Teardown := none, Setup := none }
        match wt1.restartHandler with
        | none => .ok (wt1, w1)
        | some restartHandler =>
          let asked := callHandler restartHandler watcherErr w1
          if !asked.1 then .ok (wt1, asked.2)
          else
            match wt1.start asked.2 with
            | .error f => .error f
            | .ok (setupErr, wt2, w2) =>
              if setupErr ≠ none then
                .ok (wt2, (callHandler restartHandler { watcherErr with Setup := setupErr } w2).2)
              else .ok (wt2, w2)

/-- The method `watcher` (watcher/watcher.go:47-83) of the goroutine bound to
channel `interceptedStopping`: the receive of line 49 yields the value handed
over by a sender, or nil once the channel is closed; then the body runs with the
lock held and the goroutine returns.  While neither holds it stays parked. -/
def Watcher.watcher {σ : Type} (interceptedStopping : Nat) (wt : Watcher σ) (w : World σ) :
    Exec (Watcher σ × World σ) :=
  match w.chans[interceptedStopping]? with
  | none => .ok (wt, w)
  | some ch =>
    match ch.mon with
    | .received doingErr =>
      match wt.resolve doingErr w with
      | .error f => .error f
      | .ok (wt1, w1) => .ok (wt1, finishWatcher interceptedStopping w1)
    | .receiving =>
      if ch.closed then
        match wt.resolve none w with
        | .error f => .error f
        | .ok (wt1, w1) => .ok (wt1, finishWatcher interceptedStopping w1)
      else .ok (wt, w)
    | _ => .ok (wt, w)

/-- The function `RestartOnDo` (watcher/watcher.go:154-159). -/
def RestartOnDo {σ : Type} : Handler σ := fun err u =>
  (if err.Teardown = none ∧ err.Setup = none then true else false, u)

/-- The function `RestartNever` (watcher/watcher.go:162-164). -/
def RestartNever {σ : Type} : Handler σ := fun _ u => (false, u)

/-- The function `New` (watcher/watcher.go:169-179). -/
def New {σ : Type} (setup do_ teardown : σ → Err × σ) (restartHandler : Option (Handler σ)) :
    Watcher σ :=
  { setup := setup, do_ := do_, teardown := teardown,
    restartHandler := some (match restartHandler with
      | none => RestartNever
      | some h => h),
    closer := .nil }

/-- The scheduler lets the task goroutine of the owned handle run `n` steps. -/
def Watcher.runTask {σ : Type} (n : Nat) (wt : Watcher σ) (w : World σ) :
    Exec (Watcher σ × World σ) :=
  match wt.closer with
  | .closer (some c) =>
    match c.runN n w with
    | .error f => .error f
    | .ok (c1, w1) => .ok ({ wt with closer := .closer (some c1) }, w1)
  | _ => .ok (wt, w)

/-- What can happen next to a supervisor: an external caller runs `Start` or
`Stop`, the task goroutine of the owned handle runs one step, or the `watcher`
goroutine bound to channel `i` runs (it stays parked when it has nothing to
receive). -/
inductive Action
  | start
  | stop
  | task
  | monitor (i : Nat)
deriving DecidableEq, Repr

/-- One scheduling decision.  The error returned to an external caller is not
part of the state. -/
def Watcher.act {σ : Type} (a : Action) (wt : Watcher σ) (w : World σ) :
    Exec (Watcher σ × World σ) :=
  match a with
  | .start =>
    match wt.Start w with
    | .error f => .error f
    | .ok (_, wt1, w1) => .ok (wt1, w1)
  | .stop =>
    match wt.Stop w with
    | .error f => .error f
    | .ok (_, wt1, w1) => .ok (wt1, w1)
  | .task => wt.runTask 1 w
  | .monitor i => wt.watcher i w

/-- An interleaving: the scheduling decisions taken one after the other. -/
def Watcher.exec {σ : Type} : List Action → Watcher σ → World σ → Exec (Watcher σ × World σ)
  | [], wt, w => .ok (wt, w)
  | a :: rest, wt, w =>
    match wt.act a w with
    | .error f => .error f
    | .ok (wt1, w1) => Watcher.exec rest wt1 w1

end watcher

/-! ### Trace vocabulary used by the statements about one run -/

/-- Log entries of `k` loop iterations whose `do` returned nil. -/
def doneOk (k : Nat) : List Event := List.replicate k (Event.call .do_ none)

/-- Log entry of the iteration that ended the loop: the failing `do`, or
nothing when the loop was cancelled. -/
def lastDo : Err → List Event
  | some x => [Event.call .do_ (some x)]
  | none => []

/-- The terminal error `r` of a run whose loop ended with `d` (nil: cancelled)
and whose teardown returned `t`. -/
def Terminal (d t r : Err) : Prop :=
  match d, t with
  | some x, none => r = some x
  | some x, some y => ∃ e, r = some e ∧ e.Error = x.Error ++ y.Error
  | none, t => r = t

/-- Relation between the control state of a task goroutine started by `Open`
and the log, where `L` is the log when the goroutine was spawned. -/
def Shape {σ : Type} (L : List Event) (t : Task σ) (log : List Event) : Prop :=
  match t.pc with
  | .setup => t.err = none ∧ t.doing = true ∧ log = L
  | .loop =>
    if t.doing then t.err = none ∧ ∃ k, log = L ++ doneOk k
    else ∃ k, log = L ++ doneOk k ++ lastDo t.err
  | .teardown => ∃ k, log = L ++ doneOk k ++ lastDo t.err
  | .send => ∃ k d td, log = L ++ doneOk k ++ lastDo d ++ [Event.call .teardown td] ∧
      Terminal d td t.err
  | .sendSetup => False
  | .returned => False

/-- Number of steps a task goroutine needs to reach its send on `stopping` once
`stopper` is closed. -/
def Task.dist {σ : Type} (t : Task σ) : Nat :=
  match t.pc with
  | .setup => 4
  | .loop => if t.doing then 3 else 2
  | .teardown => 1
  | _ => 0

/-- The callbacks of a task: fixed when the closure is built. -/
def Task.SameCode {σ : Type} (t t1 : Task σ) : Prop :=
  t1.setup = t.setup ∧ t1.do_ = t.do_ ∧ t1.teardown = t.teardown

/-- A task built by `Open` from the three callbacks of a caller. -/
def Task.Plain {σ : Type} (dof td : σ → Err × σ) (t : Task σ) : Prop :=
  t.setup = DoesNothing ∧ t.do_ = invoke .do_ dof ∧ t.teardown = invoke .teardown td

/-- What the `watcher` goroutine of a run holds when the loop of the run has
ended with `d` (nil: no `do` has failed): the error handed over, or nothing yet. -/
def monOf (d : Err) : MonPc :=
  match d with
  | some x => .received (some x)
  | none => .receiving

/-- A task built by `Watcher.start` of package `watcher` around channel `i`. -/
def Task.Wrapped {σ : Type} (i : Nat) (dof td : σ → Err × σ) (t : Task σ) : Prop :=
  t.setup = DoesNothing ∧ t.do_ = watcher.wrappedDo i (invoke .do_ dof) ∧
    t.teardown = watcher.teardownWrapper i (invoke .teardown td)

/-- Relation between the task goroutine of a supervised run, its failure
channel `i` and the log: `L` is the log when the goroutine was spawned, `k` the
number of iterations whose `do` returned nil, `d` the error of the failing `do`
(nil while no `do` has failed); `dof` and `tdf` are the `do` and the teardown of
the caller. -/
def RunState {σ : Type} (L : List Event) (i : Nat) (dof tdf : σ → Err × σ) (k : Nat) (d : Err)
    (t : Task σ) (w : World σ) : Prop :=
  w.chans[i]? = some { closed := decide (t.pc = .send), mon := monOf d } ∧
  (∀ x, d = some x → ∃ u, (dof u).1 = some x) ∧
  match t.pc with
  | .setup => t.err = none ∧ t.doing = true ∧ d = none ∧ k = 0 ∧ w.log = L
  | .loop =>
    if t.doing then t.err = none ∧ d = none ∧ w.log = L ++ doneOk k
    else t.err = d ∧ w.log = L ++ doneOk k ++ lastDo d
  | .teardown => t.err = d ∧ w.log = L ++ doneOk k ++ lastDo d
  | .send => ∃ tr, w.log = L ++ doneOk k ++ lastDo d ++ [Event.call .teardown tr] ∧
      Terminal d tr t.err ∧ ∃ u, (tdf u).1 = tr
  | .sendSetup => False
  | .returned => False

/-- The handle `c` is one that a supervisor with the callbacks of `b` can own in
world `w`: open, not cancelled, its task built around channel `j` and in step
with that channel and the log; as long as no `do` has failed the task is still
looping. -/
def OwnedAt {σ : Type} (b : watcher.Watcher σ) (c : Closer σ) (w : World σ) (j : Nat) : Prop :=
  c.closed = false ∧ c.stopperClosed = false ∧ c.task.Wrapped j b.do_ b.teardown ∧
  ∃ L k d, RunState L j b.do_ b.teardown k d c.task w ∧
    (d = none → c.task.doing = true ∧ (c.task.pc = .setup ∨ c.task.pc = .loop))

/-- The states of a supervisor built as `b` (which owns no handle): it owns no
handle, or it owns a handle as described by `OwnedAt`, built around the channel
made last. -/
def Inv {σ : Type} (b wt : watcher.Watcher σ) (w : World σ) : Prop :=
  wt = b ∨ ∃ c j, wt = { b with closer := .closer (some c) } ∧ OwnedAt b c w j ∧
    j + 1 = w.chans.length

/-- The relation `Shape` with its counters exposed: `k` iterations whose `do`
returned nil so far, and `d` the error of the failing `do` (nil while no `do` has
failed). -/
def PlainState {σ : Type} (L : List Event) (k : Nat) (d : Err) (t : Task σ)
    (log : List Event) : Prop :=
  match t.pc with
  | .setup => t.err = none ∧ t.doing = true ∧ d = none ∧ k = 0 ∧ log = L
  | .loop =>
    if t.doing then t.err = none ∧ d = none ∧ log = L ++ doneOk k
    else t.err = d ∧ log = L ++ doneOk k ++ lastDo d
  | .teardown => t.err = d ∧ log = L ++ doneOk k ++ lastDo d
  | .send => ∃ tr, log = L ++ doneOk k ++ lastDo d ++ [Event.call .teardown tr]
  | .sendSetup => False
  | .returned => False

/-- Number of `do` invocations recorded by the counters of `PlainState`. -/
def doCalls (k : Nat) (d : Err) : Nat := k + (lastDo d).length

/-- The callback named by a log entry, if it is a callback invocation. -/
def Event.hook? : Event → Option Hook
  | .call h _ => some h
  | .policy _ _ => none

/-- The sequence of callback invocations recorded in a piece of log. -/
def hooks (l : List Event) : List Hook := l.filterMap Event.hook?

/-! ### Sample callbacks on a counter, used to instantiate the statements -/

/-- An error value of a caller, like `ErrTest` of the tests. -/
def sampleErr : GoError := ⟨100, "Test Error", errorString⟩

/-- A second error value of a caller. -/
def sampleErr2 : GoError := ⟨101, "TeardownError", errorString⟩

/-- A callback that counts its invocations and returns nil. -/
def sampleOk : Nat → Err × Nat := fun u => (none, u + 1)

/-- A callback that counts its invocations and fails from the third on. -/
def sampleDo : Nat → Err × Nat := fun u => (if u < 2 then none else some sampleErr, u + 1)

/-- A callback that always fails. -/
def sampleFail : Nat → Err × Nat := fun u => (some sampleErr2, u + 1)

/-- An initial world: counter at zero, empty log, no channel made yet. -/
def sampleWorld : World Nat := { user := 0, log := [], nextAddr := 1000, chans := [] }

/-- A `do` that fails exactly when the counter is two. -/
def sampleDoOnce : Nat → Err × Nat := fun u => (if u = 2 then some sampleErr else none, u + 1)

/-- A setup that succeeds only when the counter is zero. -/
def sampleSetupOnce : Nat → Err × Nat := fun u => (if u = 0 then none else some sampleErr2, u + 1)

/-- A restart handler that always asks for a restart and sets the counter to seven. -/
def sampleAlways : Handler Nat := fun _ _ => (true, 7)

/-- The caller-side `DoesNothing` of the tests: returns nil, touches nothing. -/
def sampleNothing : Nat → Err × Nat := fun u => (none, u)

/-- The `do` of `TestDoingAndTeardownFails` (stoppable_test.go:113-117). -/
def sampleDoingError : Nat → Err × Nat := fun u => (some ⟨200, "DoingError", errorString⟩, u + 1)

/-- The teardown of `TestDoingAndTeardownFails` (stoppable_test.go:117-119). -/
def sampleTeardownError : Nat → Err × Nat := fun u => (some ⟨201, "TeardownError", errorString⟩, u)

/-- A dynamic type whose values cannot be compared, like a slice type
`type fieldErrors []string` with a method `Error`. -/
def fieldErrors : GoType := ⟨"fieldErrors", false⟩

/-- An error value of that type. -/
def sampleSliceErr : GoError := ⟨0, "invalid fields", fieldErrors⟩

/-- A callback that counts its invocations and fails from the third on with
`sampleSliceErr`. -/
def sampleDoSlice : Nat → Err × Nat :=
  fun u => (if u < 2 then none else some sampleSliceErr, u + 1)

/-- A `do` that fails with `sampleErr` when the counter is one and otherwise with
the value of the package variable `ErrAlreadyStopped`. -/
def sampleDoSentinel : Nat → Err × Nat :=
  fun u => (if u = 1 then some sampleErr else some watcher.ErrAlreadyStopped, u + 1)

/-- The handle `Open` returns for the sample callbacks. -/
def sampleHandle : Closer Nat :=
  { closed := false, stopperClosed := false,
    task := newTask DoesNothing (invoke .do_ sampleDo) (invoke .teardown sampleOk) }

/-- The world after `Open` has run the sample setup. -/
def sampleOpened : World Nat :=
  { user := 1, log := [Event.call .setup none], nextAddr := 1000, chans := [] }

/-! ## Theorems: the task runner -/

theorem step_plain {σ : Type} (dof td : σ → Err × σ) (L : List Event) (b : Bool)
    (t : Task σ) (w : World σ) (hp : t.Plain dof td) (h : Shape L t w.log) :
    ∃ t1 w1, t.step b w = .ok (t1, w1) ∧ t1.Plain dof td ∧ Shape L t1 w1.log ∧
      (b = true → t1.dist + 1 = t.dist ∨ (t.dist = 0 ∧ t1.dist = 0)) := by
  obtain ⟨s, d, tdn, pc, err, doing⟩ := t
  obtain ⟨h1, h2, h3⟩ := hp
  simp only at h1 h2 h3
  subst h1 h2 h3
  cases pc
  · -- setup
    simp only [Shape] at h
    obtain ⟨he, hd, hl⟩ := h
    subst he hd
    refine ⟨_, _, by simp [Task.step, DoesNothing]; exact ⟨rfl, rfl⟩, ⟨rfl, rfl, rfl⟩, ?_, ?_⟩
    · simp [Shape]; exact ⟨0, by simp [doneOk, hl]⟩
    · simp [Task.dist]
  · exact absurd h (by simp [Shape])
  · -- loop
    cases doing
    · simp only [Shape] at h
      simp at h
      refine ⟨_, _, by simp [Task.step]; exact ⟨rfl, rfl⟩, ⟨rfl, rfl, rfl⟩, ?_, ?_⟩
      · simpa [Shape] using h
      · simp [Task.dist]
    · simp only [Shape] at h
      simp at h
      obtain ⟨he, k, hk⟩ := h
      subst he
      cases b
      · cases hres : (dof w.user).1 with
        | none =>
          refine ⟨_, _, by simp [Task.step, invoke, hres]; exact ⟨rfl, rfl⟩, ⟨rfl, rfl, rfl⟩, ?_, by simp⟩
          simp [Shape, hk]
          exact ⟨k + 1, by simp [doneOk, List.replicate_succ']⟩
        | some x =>
          refine ⟨_, _, by simp [Task.step, invoke, hres]; exact ⟨rfl, rfl⟩, ⟨rfl, rfl, rfl⟩, ?_, by simp⟩
          simp [Shape, hk]
          exact ⟨k, by simp [lastDo]⟩
      · refine ⟨_, _, by simp [Task.step]; exact ⟨rfl, rfl⟩, ⟨rfl, rfl, rfl⟩, ?_, ?_⟩
        · simp [Shape]; exact ⟨k, by simp [hk, lastDo]⟩
        · simp [Task.dist]
  · -- teardown
    simp only [Shape] at h
    obtain ⟨k, hk⟩ := h
    cases hres : (td w.user).1 with
    | none =>
      refine ⟨_, _, by simp [Task.step, invoke, hres]; exact ⟨rfl, rfl⟩, ⟨rfl, rfl, rfl⟩, ?_, by simp [Task.dist]⟩
      simp only [Shape]
      refine ⟨k, err, none, by simp [hk], ?_⟩
      cases err <;> simp [Terminal]
    | some y =>
      cases err with
      | none =>
        refine ⟨_, _, by simp [Task.step, invoke, hres]; exact ⟨rfl, rfl⟩, ⟨rfl, rfl, rfl⟩, ?_, by simp [Task.dist]⟩
        simp only [Shape]
        exact ⟨k, none, some y, by simp [hk], by simp [Terminal]⟩
      | some x =>
        refine ⟨_, _, by simp [Task.step, invoke, hres]; exact ⟨rfl, rfl⟩, ⟨rfl, rfl, rfl⟩, ?_, by simp [Task.dist]⟩
        simp only [Shape]
        exact ⟨k, some x, some y, by simp [hk, errorsNew], by simp [Terminal, errorsNew, GoError.Error]⟩
  · -- send
    exact ⟨_, _, rfl, ⟨rfl, rfl, rfl⟩, h, by simp [Task.dist]⟩
  · exact absurd h (by simp [Shape])

theorem dist_le {σ : Type} (t : Task σ) : t.dist ≤ 4 := by
  unfold Task.dist
  split <;> try split
  all_goals omega

theorem run_dist {σ : Type} (c c1 : Closer σ) (w w1 : World σ)
    (hsc : c.stopperClosed = true) (h : c.run w = .ok (c1, w1)) :
    c1.stopperClosed = true ∧ (c1.task.dist + 1 ≤ c.task.dist ∨ c.task.dist = 0) := by
  obtain ⟨cl, sc, ⟨s, d, td, pc, err, doing⟩⟩ := c
  simp only at hsc
  subst hsc
  cases pc
  · cases hs : s w with
    | error f => simp [Closer.run, Task.step, hs] at h
    | ok p =>
      obtain ⟨e, w2⟩ := p
      by_cases he : e = none
      · simp [Closer.run, Task.step, hs, he] at h
        obtain ⟨h1, -⟩ := h
        subst h1
        refine ⟨rfl, Or.inl ?_⟩
        simp only [Task.dist]
        split <;> omega
      · simp [Closer.run, Task.step, hs, he] at h
        obtain ⟨h1, -⟩ := h
        subst h1
        exact ⟨rfl, Or.inl (by simp [Task.dist])⟩
  · exact ⟨by simp [Closer.run, Task.step] at h; rw [← h.1], Or.inr (by simp [Task.dist])⟩
  · cases doing
    · simp [Closer.run, Task.step] at h
      obtain ⟨h1, -⟩ := h
      subst h1
      exact ⟨rfl, Or.inl (by simp [Task.dist])⟩
    · simp [Closer.run, Task.step] at h
      obtain ⟨h1, -⟩ := h
      subst h1
      exact ⟨rfl, Or.inl (by simp [Task.dist])⟩
  · cases hs : td w with
    | error f => simp [Closer.run, Task.step, hs] at h
    | ok p =>
      obtain ⟨e, w2⟩ := p
      cases e with
      | none =>
        simp [Closer.run, Task.step, hs] at h
        obtain ⟨h1, -⟩ := h
        subst h1
        exact ⟨rfl, Or.inl (by simp [Task.dist])⟩
      | some y =>
        cases err with
        | none =>
          simp [Closer.run, Task.step, hs] at h
          obtain ⟨h1, -⟩ := h
          subst h1
          exact ⟨rfl, Or.inl (by simp [Task.dist])⟩
        | some x =>
          simp [Closer.run, Task.step, hs] at h
          obtain ⟨h1, -⟩ := h
          subst h1
          exact ⟨rfl, Or.inl (by simp [Task.dist])⟩
  · exact ⟨by simp [Closer.run, Task.step] at h; rw [← h.1], Or.inr (by simp [Task.dist])⟩
  · exact ⟨by simp [Closer.run, Task.step] at h; rw [← h.1], Or.inr (by simp [Task.dist])⟩

theorem recvStopping_succ {σ : Type} (fuel : Nat) :
    ∀ (c : Closer σ) (w : World σ), c.stopperClosed = true → c.task.dist < fuel →
    Closer.recvStopping (fuel + 1) c w = Closer.recvStopping fuel c w := by
  induction fuel with
  | zero => intro c w _ hd; omega
  | succ fuel ih =>
    intro c w hsc hd
    cases hpc : c.task.pc with
    | sendSetup => simp [Closer.recvStopping, hpc]
    | send => simp [Closer.recvStopping, hpc]
    | returned => simp [Closer.recvStopping, hpc]
    | setup =>
      have hd0 : c.task.dist = 4 := by simp [Task.dist, hpc]
      cases hr : c.run w with
      | error f => simp [Closer.recvStopping, hpc, hr]
      | ok p =>
        obtain ⟨c1, w1⟩ := p
        obtain ⟨hsc1, hdist⟩ := run_dist c c1 w w1 hsc hr
        have := ih c1 w1 hsc1 (by omega)
        rw [Closer.recvStopping, Closer.recvStopping]
        simp only [hpc, hr]
        exact this
    | loop =>
      have hd0 : 2 ≤ c.task.dist := by simp only [Task.dist, hpc]; split <;> omega
      cases hr : c.run w with
      | error f => simp [Closer.recvStopping, hpc, hr]
      | ok p =>
        obtain ⟨c1, w1⟩ := p
        obtain ⟨hsc1, hdist⟩ := run_dist c c1 w w1 hsc hr
        have := ih c1 w1 hsc1 (by omega)
        rw [Closer.recvStopping, Closer.recvStopping]
        simp only [hpc, hr]
        exact this
    | teardown =>
      have hd0 : c.task.dist = 1 := by simp [Task.dist, hpc]
      cases hr : c.run w with
      | error f => simp [Closer.recvStopping, hpc, hr]
      | ok p =>
        obtain ⟨c1, w1⟩ := p
        obtain ⟨hsc1, hdist⟩ := run_dist c c1 w w1 hsc hr
        have := ih c1 w1 hsc1 (by omega)
        rw [Closer.recvStopping, Closer.recvStopping]
        simp only [hpc, hr]
        exact this

/-- Once `stopper` is closed, the fuel of `Close` is enough whatever the
callbacks are: more fuel never changes the outcome of the receive. -/
theorem recvStopping_fuel {σ : Type} (c : Closer σ) (w : World σ)
    (hsc : c.stopperClosed = true) (extra : Nat) :
    Closer.recvStopping (closeFuel + extra) c w = Closer.recvStopping closeFuel c w := by
  induction extra with
  | zero => rfl
  | succ j ih =>
    rw [← ih]
    exact recvStopping_succ (closeFuel + j) c w hsc
      (by have := dist_le c.task; simp [closeFuel]; omega)

theorem runN_plain {σ : Type} (dof td : σ → Err × σ) (L : List Event) (n : Nat) :
    ∀ (c : Closer σ) (w : World σ), c.task.Plain dof td → Shape L c.task w.log →
    ∃ c1 w1, c.runN n w = .ok (c1, w1) ∧ c1.closed = c.closed ∧
      c1.stopperClosed = c.stopperClosed ∧ c1.task.Plain dof td ∧ Shape L c1.task w1.log := by
  induction n with
  | zero => intro c w hp h; exact ⟨c, w, rfl, rfl, rfl, hp, h⟩
  | succ n ih =>
    intro c w hp h
    obtain ⟨t1, w1, hs, hp1, h1, -⟩ := step_plain dof td L c.stopperClosed c.task w hp h
    obtain ⟨c2, w2, hr, hc, hsc, hp2, h2⟩ := ih { c with task := t1 } w1 hp1 h1
    exact ⟨c2, w2, by simp [Closer.runN, Closer.run, hs, hr], hc, hsc, hp2, h2⟩

theorem recv_plain {σ : Type} (dof td : σ → Err × σ) (L : List Event) (fuel : Nat) :
    ∀ (c : Closer σ) (w : World σ), c.task.dist < fuel → c.stopperClosed = true →
    c.task.Plain dof td → Shape L c.task w.log →
    ∃ r c1 w1, Closer.recvStopping fuel c w = .ok (r, c1, w1) ∧ c1.closed = c.closed ∧
      c1.stopperClosed = true ∧ c1.task.pc = .returned ∧
      ∃ k d t, w1.log = L ++ doneOk k ++ lastDo d ++ [Event.call .teardown t] ∧
        Terminal d t r := by
  induction fuel with
  | zero => intro c w hd; omega
  | succ fuel ih =>
    intro c w hd hsc hp h
    obtain ⟨t1, w1, hs, hp1, h1, hdist⟩ := step_plain dof td L c.stopperClosed c.task w hp h
    have hdist := hdist hsc
    have hrec := ih { c with task := t1 } w1
    cases hpc : c.task.pc with
    | sendSetup => simp [Shape, hpc] at h
    | returned => simp [Shape, hpc] at h
    | send =>
      simp only [Shape, hpc] at h
      exact ⟨c.task.err, { c with task := { c.task with pc := .returned } }, w,
        by simp [Closer.recvStopping, hpc], rfl, hsc, rfl, h⟩
    | setup =>
      have hd0 : c.task.dist = 4 := by simp [Task.dist, hpc]
      obtain ⟨r, c2, w2, hr, hc, hsc2, hpc2, hlog⟩ := hrec (by simp; omega) hsc hp1 h1
      exact ⟨r, c2, w2, by simp [Closer.recvStopping, hpc, Closer.run, hs, hr], hc, hsc2, hpc2, hlog⟩
    | loop =>
      have hd0 : 2 ≤ c.task.dist := by simp only [Task.dist, hpc]; split <;> omega
      obtain ⟨r, c2, w2, hr, hc, hsc2, hpc2, hlog⟩ := hrec (by simp; omega) hsc hp1 h1
      exact ⟨r, c2, w2, by simp [Closer.recvStopping, hpc, Closer.run, hs, hr], hc, hsc2, hpc2, hlog⟩
    | teardown =>
      have hd0 : c.task.dist = 1 := by simp [Task.dist, hpc]
      obtain ⟨r, c2, w2, hr, hc, hsc2, hpc2, hlog⟩ := hrec (by simp; omega) hsc hp1 h1
      exact ⟨r, c2, w2, by simp [Closer.recvStopping, hpc, Closer.run, hs, hr], hc, hsc2, hpc2, hlog⟩

theorem close_plain {σ : Type} (dof td : σ → Err × σ) (L : List Event)
    (c : Closer σ) (w : World σ) (hc : c.closed = false) (hsc : c.stopperClosed = false)
    (hp : c.task.Plain dof td) (h : Shape L c.task w.log) :
    ∃ r c1 w1, c.Close w = .ok (r, c1, w1) ∧ c1.closed = true ∧
      c1.stopperClosed = true ∧ c1.task.pc = .returned ∧
      ∃ k d t, w1.log = L ++ doneOk k ++ lastDo d ++ [Event.call .teardown t] ∧
        Terminal d t r := by
  obtain ⟨r, c1, w1, hr, -, hsc1, hpc1, hlog⟩ :=
    recv_plain dof td L closeFuel { c with stopperClosed := true } w
      (by have := dist_le c.task; simp [closeFuel]; omega) rfl hp h
  simp only [hc] at hr
  exact ⟨r, { c1 with closed := true }, w1, by simp [Closer.Close, hc, hsc, hr], rfl, hsc1, hpc1, hlog⟩

theorem open_plain {σ : Type} (su dof td : σ → Err × σ) (w0 : World σ)
    (hsetup : (su w0.user).1 = none) :
    ∃ c w1, Open (invoke .setup su) (invoke .do_ dof) (invoke .teardown td) w0
        = .ok (some c, none, w1) ∧
      c.closed = false ∧ c.stopperClosed = false ∧ c.task.Plain dof td ∧
      Shape (w0.log ++ [Event.call .setup none]) c.task w1.log := by
  refine ⟨_, _, by simp [Open, invoke, hsetup]; exact ⟨rfl, rfl⟩, rfl, rfl, ⟨rfl, rfl, rfl⟩, ?_⟩
  simp [Shape, newTask]

theorem hooks_doneOk (k : Nat) : hooks (doneOk k) = List.replicate k Hook.do_ := by
  induction k with
  | zero => rfl
  | succ k ih =>
    simp only [hooks, doneOk, List.replicate_succ] at ih ⊢
    simp [List.filterMap_cons, Event.hook?, ih]

/-- C1: for a run started by `Open` whose setup succeeded, after any number `n`
of scheduled steps of the task goroutine (so also when the loop has already
ended on its own), the first `Close` returns, and its result is determined by
the way the loop ended (`d`: the error of the failing `do`, or nil when the loop
was cancelled) and by the result `t` of teardown: `d` itself when teardown
succeeded, an error whose message is the message of `d` followed by the message
of `t` when both failed, nil when the loop was cancelled and teardown succeeded,
and `t` alone when the loop was cancelled and teardown failed. -/
theorem close_terminal_error {σ : Type} (su dof td : σ → Err × σ) (w0 : World σ) (n : Nat)
    (hsetup : (su w0.user).1 = none) :
    ∃ c w1 c2 w2 r c3 w3,
      Open (invoke .setup su) (invoke .do_ dof) (invoke .teardown td) w0
        = .ok (some c, none, w1) ∧
      c.runN n w1 = .ok (c2, w2) ∧
      c2.Close w2 = .ok (r, c3, w3) ∧
      ∃ k d t, w3.log = w0.log ++ [Event.call .setup none] ++ doneOk k ++ lastDo d
          ++ [Event.call .teardown t] ∧
        (∀ x, d = some x → t = none → r = some x) ∧
        (∀ x y, d = some x → t = some y → ∃ e, r = some e ∧ e.Error = x.Error ++ y.Error) ∧
        (d = none → t = none → r = none) ∧
        (∀ y, d = none → t = some y → r = some y) := by
  obtain ⟨c, w1, ho, hc, hsc, hp, hsh⟩ := open_plain su dof td w0 hsetup
  obtain ⟨c2, w2, hr, hc2, hsc2, hp2, hsh2⟩ := runN_plain dof td _ n c w1 hp hsh
  obtain ⟨r, c3, w3, hcl, -, -, -, k, d, t, hlog, hterm⟩ :=
    close_plain dof td _ c2 w2 (hc2.trans hc) (hsc2.trans hsc) hp2 hsh2
  refine ⟨c, w1, c2, w2, r, c3, w3, ho, hr, hcl, k, d, t, hlog, ?_, ?_, ?_, ?_⟩
  · intro x hd ht; subst hd ht; simpa [Terminal] using hterm
  · intro x y hd ht; subst hd ht; simpa [Terminal] using hterm
  · intro hd ht; subst hd ht; simpa [Terminal] using hterm
  · intro y hd ht; subst hd ht; simpa [Terminal] using hterm

theorem close_terminal_error_witness :
    (sampleOk sampleWorld.user).1 = none ∧
    ∃ c w1 c2 w2 r c3 w3,
      Open (invoke .setup sampleOk) (invoke .do_ sampleDo) (invoke .teardown sampleFail) sampleWorld
        = .ok (some c, none, w1) ∧
      c.runN 7 w1 = .ok (c2, w2) ∧
      c2.Close w2 = .ok (r, c3, w3) ∧
      ∃ k d t, w3.log = sampleWorld.log ++ [Event.call .setup none] ++ doneOk k ++ lastDo d
          ++ [Event.call .teardown t] ∧
        (∀ x, d = some x → t = none → r = some x) ∧
        (∀ x y, d = some x → t = some y → ∃ e, r = some e ∧ e.Error = x.Error ++ y.Error) ∧
        (d = none → t = none → r = none) ∧
        (∀ y, d = none → t = some y → r = some y) :=
  ⟨rfl, close_terminal_error sampleOk sampleDo sampleFail sampleWorld 7 rfl⟩

/-- C2: for a run started by `Open` whose setup succeeded and that is closed
after any number `n` of scheduled steps of the task goroutine, the callbacks
invoked from `Open` to the return of `Close` are: setup once, then `m` calls of
`do` (zero or more), then teardown once, as the last invocation. -/
theorem callback_sequence {σ : Type} (su dof td : σ → Err × σ) (w0 : World σ) (n : Nat)
    (hsetup : (su w0.user).1 = none) :
    ∃ c w1 c2 w2 r c3 w3,
      Open (invoke .setup su) (invoke .do_ dof) (invoke .teardown td) w0
        = .ok (some c, none, w1) ∧
      c.runN n w1 = .ok (c2, w2) ∧
      c2.Close w2 = .ok (r, c3, w3) ∧
      ∃ run m, w3.log = w0.log ++ run ∧
        hooks run = Hook.setup :: (List.replicate m Hook.do_ ++ [Hook.teardown]) ∧
        (hooks run).count Hook.setup = 1 ∧ (hooks run).count Hook.teardown = 1 ∧
        (hooks run).getLast? = some Hook.teardown := by
  obtain ⟨c, w1, ho, hc, hsc, hp, hsh⟩ := open_plain su dof td w0 hsetup
  obtain ⟨c2, w2, hr, hc2, hsc2, hp2, hsh2⟩ := runN_plain dof td _ n c w1 hp hsh
  obtain ⟨r, c3, w3, hcl, -, -, -, k, d, t, hlog, -⟩ :=
    close_plain dof td _ c2 w2 (hc2.trans hc) (hsc2.trans hsc) hp2 hsh2
  have hk : ∀ j : Nat, (List.replicate j Hook.do_).count Hook.setup = 0 ∧
      (List.replicate j Hook.do_).count Hook.teardown = 0 := by
    intro j; simp [List.count_replicate]
  have hsplit : ∀ (h : Hook) (e : Err) (l : List Event),
      hooks (Event.call h e :: l) = h :: hooks l := by
    intro h e l; simp [hooks, List.filterMap_cons, Event.hook?]
  have hnil : hooks [] = [] := rfl
  have happ : ∀ l1 l2 : List Event, hooks (l1 ++ l2) = hooks l1 ++ hooks l2 := by
    intro l1 l2; simp [hooks]
  cases d with
  | none =>
    refine ⟨c, w1, c2, w2, r, c3, w3, ho, hr, hcl,
      [Event.call .setup none] ++ doneOk k ++ lastDo none ++ [Event.call .teardown t], k,
      by simp [hlog], ?_⟩
    have hh : hooks ([Event.call .setup none] ++ doneOk k ++ lastDo none
        ++ [Event.call .teardown t]) = Hook.setup :: (List.replicate k Hook.do_ ++ [Hook.teardown]) := by
      simp [happ, hooks_doneOk, lastDo, hsplit, hnil]
    rw [hh]
    refine ⟨rfl, ?_, ?_, ?_⟩
    · simp [List.count_cons, (hk k).1]
    · simp [List.count_cons, (hk k).2]
    · simp [List.getLast?_cons, List.getLast?_append]
  | some x =>
    refine ⟨c, w1, c2, w2, r, c3, w3, ho, hr, hcl,
      [Event.call .setup none] ++ doneOk k ++ lastDo (some x) ++ [Event.call .teardown t], k + 1,
      by simp [hlog], ?_⟩
    have hh : hooks ([Event.call .setup none] ++ doneOk k ++ lastDo (some x)
        ++ [Event.call .teardown t])
        = Hook.setup :: (List.replicate (k + 1) Hook.do_ ++ [Hook.teardown]) := by
      simp [happ, hooks_doneOk, lastDo, List.replicate_succ', hsplit, hnil]
    rw [hh]
    refine ⟨rfl, ?_, ?_, ?_⟩
    · simp [List.count_cons, (hk (k + 1)).1]
    · simp [List.count_cons, (hk (k + 1)).2]
    · simp [List.getLast?_cons, List.getLast?_append]

theorem callback_sequence_witness :
    (sampleOk sampleWorld.user).1 = none ∧
    ∃ c w1 c2 w2 r c3 w3,
      Open (invoke .setup sampleOk) (invoke .do_ sampleDo) (invoke .teardown sampleOk) sampleWorld
        = .ok (some c, none, w1) ∧
      c.runN 2 w1 = .ok (c2, w2) ∧
      c2.Close w2 = .ok (r, c3, w3) ∧
      ∃ run m, w3.log = sampleWorld.log ++ run ∧
        hooks run = Hook.setup :: (List.replicate m Hook.do_ ++ [Hook.teardown]) ∧
        (hooks run).count Hook.setup = 1 ∧ (hooks run).count Hook.teardown = 1 ∧
        (hooks run).getLast? = some Hook.teardown :=
  ⟨rfl, callback_sequence sampleOk sampleDo sampleOk sampleWorld 2 rfl⟩

/-- The scenario of `TestDoingAndTeardownFails` (stoppable_test.go:109-130): `do`
has run once and failed, then `Close` returns an error whose text is
"DoingErrorTeardownError". -/
theorem doing_and_teardown_fail_text :
    ∃ c w1 c2 w2 e c3 w3,
      Open (invoke .setup sampleNothing) (invoke .do_ sampleDoingError)
        (invoke .teardown sampleTeardownError) sampleWorld = .ok (some c, none, w1) ∧
      c.runN 2 w1 = .ok (c2, w2) ∧ w2.user = 1 ∧
      c2.Close w2 = .ok (some e, c3, w3) ∧ e.Error = "DoingErrorTeardownError" ∧
      w3.log = [Event.call .setup none, Event.call .do_ (some ⟨200, "DoingError", errorString⟩),
        Event.call .teardown (some ⟨201, "TeardownError", errorString⟩)] :=
  ⟨_, _, _, _, _, _, _, rfl, rfl, rfl, rfl, by decide, rfl⟩

/-- The scenario of `TestTeardownFails` (stoppable_test.go:96-107) with `Close`
arriving before the task goroutine has run at all: `do` is never invoked and
`Close` returns the error of teardown. -/
theorem teardown_fails_alone :
    ∃ c w1 c3 w3,
      Open (invoke .setup sampleNothing) (invoke .do_ sampleNothing)
        (invoke .teardown sampleTeardownError) sampleWorld = .ok (some c, none, w1) ∧
      c.Close w1 = .ok (some ⟨201, "TeardownError", errorString⟩, c3, w3) ∧
      w3.log = [Event.call .setup none,
        Event.call .teardown (some ⟨201, "TeardownError", errorString⟩)] :=
  ⟨_, _, _, _, rfl, rfl, rfl⟩

/-- C3: when setup returns a non-nil error `e`, `Open` returns `e` itself and no
handle (so no task goroutine exists), and the only callback invoked is setup,
once: neither `do` nor teardown is called. -/
theorem open_setup_error {σ : Type} (su dof td : σ → Err × σ) (w0 : World σ) (e : GoError)
    (hsetup : (su w0.user).1 = some e) :
    Open (invoke .setup su) (invoke .do_ dof) (invoke .teardown td) w0
      = .ok (none, some e,
          { w0 with user := (su w0.user).2, log := w0.log ++ [Event.call .setup (some e)] }) := by
  simp [Open, invoke, hsetup]

theorem open_setup_error_witness :
    (sampleFail sampleWorld.user).1 = some sampleErr2 ∧
    Open (invoke .setup sampleFail) (invoke .do_ sampleDo) (invoke .teardown sampleOk) sampleWorld
      = .ok (none, some sampleErr2,
          { sampleWorld with user := (sampleFail sampleWorld.user).2,
                             log := sampleWorld.log ++ [Event.call .setup (some sampleErr2)] }) :=
  ⟨rfl, open_setup_error sampleFail sampleDo sampleOk sampleWorld sampleErr2 rfl⟩

/-- C4: once a first `Close` on a handle has returned (with any result `r`), the
handle is closed, and a later `Close`, in whatever world `w2` it is called,
returns `ErrAlreadyClosed` and leaves both the handle and the world exactly as
they were: the cancellation signal is not raised again, nothing is received
from the completion slot, the task goroutine is not run and no callback is
invoked.  As the handle is unchanged, the same holds for every later `Close`. -/
theorem close_again_already_closed {σ : Type} (c : Closer σ) (w : World σ) (r : Err)
    (c1 : Closer σ) (w1 : World σ) (hfirst : c.Close w = .ok (r, c1, w1)) :
    c1.closed = true ∧ ∀ w2 : World σ, c1.Close w2 = .ok (some ErrAlreadyClosed, c1, w2) := by
  have hc : c1.closed = true := by
    unfold Closer.Close at hfirst
    split at hfirst
    · rename_i hcl
      simp only [Except.ok.injEq, Prod.mk.injEq] at hfirst
      rw [← hfirst.2.1]; exact hcl
    · split at hfirst
      · exact absurd hfirst (by simp)
      · split at hfirst
        · exact absurd hfirst (by simp)
        · simp only [Except.ok.injEq, Prod.mk.injEq] at hfirst
          rw [← hfirst.2.1]
  exact ⟨hc, fun w2 => by simp [Closer.Close, hc]⟩

theorem close_again_already_closed_witness :
    ∃ r c1 w1,
      Open (invoke .setup sampleOk) (invoke .do_ sampleDo) (invoke .teardown sampleOk) sampleWorld
        = .ok (some sampleHandle, none, sampleOpened) ∧
      sampleHandle.Close sampleOpened = .ok (r, c1, w1) ∧
      c1.closed = true ∧ ∀ w2 : World Nat, c1.Close w2 = .ok (some ErrAlreadyClosed, c1, w2) :=
  ⟨_, _, _, rfl, rfl, close_again_already_closed sampleHandle sampleOpened _ _ _ rfl⟩

/-! ## Theorems: supervised runs -/

theorem step_wrapped {σ : Type} (i : Nat) (dof td : σ → Err × σ) (L : List Event) (b : Bool)
    (k : Nat) (d : Err) (t : Task σ) (w : World σ) (hp : t.Wrapped i dof td)
    (h : RunState L i dof td k d t w) :
    ∃ t1 w1 k1 d1, t.step b w = .ok (t1, w1) ∧ t1.Wrapped i dof td ∧
      RunState L i dof td k1 d1 t1 w1 ∧
      (b = true → k1 = k ∧ d1 = d ∧ (t1.dist + 1 = t.dist ∨ (t.dist = 0 ∧ t1.dist = 0))) := by
  obtain ⟨s, dw, tdn, pc, err, doing⟩ := t
  obtain ⟨h1, h2, h3⟩ := hp
  simp only at h1 h2 h3
  subst h1 h2 h3
  obtain ⟨hch, hdof, h⟩ := h
  have hlt : i < w.chans.length := by
    by_contra hge
    rw [List.getElem?_eq_none (by omega)] at hch
    exact absurd hch (by simp)
  cases pc
  · -- setup
    simp only at h
    obtain ⟨he, hd, hdn, hk, hl⟩ := h
    subst he hd hdn hk
    refine ⟨_, w, 0, none, by simp [Task.step, DoesNothing]; rfl, ⟨rfl, rfl, rfl⟩,
      ⟨by simpa using hch, hdof, ?_⟩, ?_⟩
    · simp [doneOk, hl]
    · simp [Task.dist]
  · exact absurd h (by simp)
  · -- loop
    cases doing
    · simp at h
      refine ⟨_, w, k, d, by simp [Task.step]; rfl, ⟨rfl, rfl, rfl⟩,
        ⟨by simpa using hch, hdof, ?_⟩, ?_⟩
      · simpa using h
      · simp [Task.dist]
    · simp at h
      obtain ⟨he, hdn, hk⟩ := h
      subst he hdn
      simp [monOf] at hch
      cases b
      · cases hres : (dof w.user).1 with
        | none =>
          refine ⟨_, _, k + 1, none, by
            simp [Task.step, watcher.wrappedDo, invoke, hres]; exact ⟨rfl, rfl⟩,
            ⟨rfl, rfl, rfl⟩, ⟨by simpa [monOf] using hch, hdof, ?_⟩, by simp⟩
          simp [hk, doneOk, List.replicate_succ']
        | some x =>
          refine ⟨_, _, k, some x, by
            simp [Task.step, watcher.wrappedDo, invoke, hres, chanSend, hch]
            exact ⟨rfl, rfl⟩,
            ⟨rfl, rfl, rfl⟩, ⟨by simp [monOf, List.getElem?_set_self hlt], ?_, ?_⟩, by simp⟩
          · intro y hy; exact ⟨w.user, by rw [hres]; exact hy⟩
          · simp [hk, lastDo]
      · refine ⟨_, w, k, none, by simp [Task.step]; rfl, ⟨rfl, rfl, rfl⟩,
          ⟨by simpa [monOf] using hch, hdof, ?_⟩, ?_⟩
        · simp [hk, lastDo]
        · simp [Task.dist]
  · -- teardown
    simp only at h
    obtain ⟨he, hk⟩ := h
    subst he
    simp at hch
    cases hres : (td w.user).1 with
    | none =>
      refine ⟨_, _, k, err, by
        simp [Task.step, watcher.teardownWrapper, invoke, hres, chanClose, hch]
        exact ⟨rfl, rfl⟩,
        ⟨rfl, rfl, rfl⟩, ⟨by simp [List.getElem?_set_self hlt], hdof, ?_⟩, by simp [Task.dist]⟩
      refine ⟨none, by simp [hk], ?_, w.user, hres⟩
      cases err <;> simp [Terminal]
    | some y =>
      cases err with
      | none =>
        refine ⟨_, _, k, none, by
          simp [Task.step, watcher.teardownWrapper, invoke, hres, chanClose, hch]
          exact ⟨rfl, rfl⟩,
          ⟨rfl, rfl, rfl⟩, ⟨by simp [List.getElem?_set_self hlt], hdof, ?_⟩, by simp [Task.dist]⟩
        exact ⟨some y, by simp [hk], by simp [Terminal], w.user, hres⟩
      | some x =>
        refine ⟨_, _, k, some x, by
          simp [Task.step, watcher.teardownWrapper, invoke, hres, chanClose, hch]
          exact ⟨rfl, rfl⟩,
          ⟨rfl, rfl, rfl⟩, ⟨by simp [errorsNew, List.getElem?_set_self hlt], hdof, ?_⟩,
          by simp [Task.dist]⟩
        exact ⟨some y, by simp [hk, errorsNew], by simp [Terminal, errorsNew, GoError.Error],
          w.user, hres⟩
  · -- send
    exact ⟨_, w, k, d, rfl, ⟨rfl, rfl, rfl⟩, ⟨hch, hdof, h⟩, by simp [Task.dist]⟩
  · exact absurd h (by simp)

theorem runN_wrapped {σ : Type} (i : Nat) (dof td : σ → Err × σ) (L : List Event) (n : Nat) :
    ∀ (c : Closer σ) (w : World σ) (k : Nat) (d : Err), c.task.Wrapped i dof td →
    RunState L i dof td k d c.task w →
    ∃ c1 w1 k1 d1, c.runN n w = .ok (c1, w1) ∧ c1.closed = c.closed ∧
      c1.stopperClosed = c.stopperClosed ∧ c1.task.Wrapped i dof td ∧
      RunState L i dof td k1 d1 c1.task w1 := by
  induction n with
  | zero => intro c w k d hp h; exact ⟨c, w, k, d, rfl, rfl, rfl, hp, h⟩
  | succ n ih =>
    intro c w k d hp h
    obtain ⟨t1, w1, k1, d1, hs, hp1, h1, -⟩ := step_wrapped i dof td L c.stopperClosed k d c.task w hp h
    obtain ⟨c2, w2, k2, d2, hr, hc, hsc, hp2, h2⟩ := ih { c with task := t1 } w1 k1 d1 hp1 h1
    exact ⟨c2, w2, k2, d2, by simp [Closer.runN, Closer.run, hs, hr], hc, hsc, hp2, h2⟩

theorem recv_wrapped {σ : Type} (i : Nat) (dof td : σ → Err × σ) (L : List Event) (k : Nat)
    (d : Err) (fuel : Nat) :
    ∀ (c : Closer σ) (w : World σ), c.task.dist < fuel → c.stopperClosed = true →
    c.task.Wrapped i dof td → RunState L i dof td k d c.task w →
    ∃ r c1 w1 t, Closer.recvStopping fuel c w = .ok (r, c1, w1) ∧
      w1.log = L ++ doneOk k ++ lastDo d ++ [Event.call .teardown t] ∧ Terminal d t r ∧
      w1.chans[i]? = some { closed := true, mon := monOf d } ∧ ∃ u, (td u).1 = t := by
  induction fuel with
  | zero => intro c w hd; omega
  | succ fuel ih =>
    intro c w hd hsc hp h
    obtain ⟨t1, w1, k1, d1, hs, hp1, h1, hdist⟩ :=
      step_wrapped i dof td L c.stopperClosed k d c.task w hp h
    obtain ⟨hk, hdd, hdist⟩ := hdist hsc
    subst hk hdd
    have hrec := ih { c with task := t1 } w1
    cases hpc : c.task.pc with
    | sendSetup => simp [RunState, hpc] at h
    | returned => simp [RunState, hpc] at h
    | send =>
      obtain ⟨hch, -, h⟩ := h
      simp only [hpc] at h hch
      obtain ⟨t, hlog, hterm, hu⟩ := h
      exact ⟨c.task.err, { c with task := { c.task with pc := .returned } }, w, t,
        by simp [Closer.recvStopping, hpc], hlog, hterm, by simpa using hch, hu⟩
    | setup =>
      have hd0 : c.task.dist = 4 := by simp [Task.dist, hpc]
      obtain ⟨r, c2, w2, t, hr, hlog⟩ := hrec (by simp; omega) hsc hp1 h1
      exact ⟨r, c2, w2, t, by simp [Closer.recvStopping, hpc, Closer.run, hs, hr], hlog⟩
    | loop =>
      have hd0 : 2 ≤ c.task.dist := by simp only [Task.dist, hpc]; split <;> omega
      obtain ⟨r, c2, w2, t, hr, hlog⟩ := hrec (by simp; omega) hsc hp1 h1
      exact ⟨r, c2, w2, t, by simp [Closer.recvStopping, hpc, Closer.run, hs, hr], hlog⟩
    | teardown =>
      have hd0 : c.task.dist = 1 := by simp [Task.dist, hpc]
      obtain ⟨r, c2, w2, t, hr, hlog⟩ := hrec (by simp; omega) hsc hp1 h1
      exact ⟨r, c2, w2, t, by simp [Closer.recvStopping, hpc, Closer.run, hs, hr], hlog⟩

theorem close_wrapped {σ : Type} (i : Nat) (dof td : σ → Err × σ) (L : List Event) (k : Nat)
    (d : Err) (c : Closer σ) (w : World σ) (hc : c.closed = false)
    (hsc : c.stopperClosed = false) (hp : c.task.Wrapped i dof td)
    (h : RunState L i dof td k d c.task w) :
    ∃ r c1 w1 t, c.Close w = .ok (r, c1, w1) ∧
      w1.log = L ++ doneOk k ++ lastDo d ++ [Event.call .teardown t] ∧ Terminal d t r ∧
      w1.chans[i]? = some { closed := true, mon := monOf d } ∧ ∃ u, (td u).1 = t := by
  obtain ⟨r, c1, w1, t, hr, hlog⟩ :=
    recv_wrapped i dof td L k d closeFuel { c with stopperClosed := true } w
      (by have := dist_le c.task; simp [closeFuel]; omega) rfl hp h
  simp only [hc] at hr
  exact ⟨r, { c1 with closed := true }, w1, t, by simp [Closer.Close, hc, hsc, hr], hlog⟩

theorem start_ok {σ : Type} (wt : watcher.Watcher σ) (w : World σ) (hnil : wt.closer = .nil)
    (hsetup : (wt.setup w.user).1 = none) :
    ∃ c w1, wt.start w = .ok (none, { wt with closer := .closer (some c) }, w1) ∧
      c.closed = false ∧ c.stopperClosed = false ∧ c.task.pc = .setup ∧
      c.task.Wrapped w.chans.length wt.do_ wt.teardown ∧
      RunState (w.log ++ [Event.call .setup none]) w.chans.length wt.do_ wt.teardown 0 none
        c.task w1 ∧
      w1.chans = w.chans ++ [{ closed := false, mon := .receiving }] ∧
      w1.log = w.log ++ [Event.call .setup none] := by
  refine ⟨{ closed := false, stopperClosed := false,
            task := newTask DoesNothing (watcher.wrappedDo w.chans.length (invoke .do_ wt.do_))
              (watcher.teardownWrapper w.chans.length (invoke .teardown wt.teardown)) },
    { user := (wt.setup w.user).2, log := w.log ++ [Event.call .setup none],
      nextAddr := w.nextAddr, chans := w.chans ++ [{ closed := false, mon := .receiving }] },
    ?_, rfl, rfl, rfl, ⟨rfl, rfl, rfl⟩, ⟨?_, ?_, ?_⟩, rfl, rfl⟩
  · simp [watcher.Watcher.start, hnil, watcher.doWrapper, chanMake, Open, invoke, hsetup,
      spawnWatcher]
  · simp [newTask, monOf]
  · intro x hx; exact absurd hx (by simp)
  · simp [newTask]

theorem start_fail {σ : Type} (wt : watcher.Watcher σ) (w : World σ) (e : GoError)
    (hnil : wt.closer = .nil) (hsetup : (wt.setup w.user).1 = some e) :
    wt.start w = .ok (some e, wt,
      { user := (wt.setup w.user).2, log := w.log ++ [Event.call .setup (some e)],
        nextAddr := w.nextAddr, chans := w.chans ++ [{ closed := true, mon := .unspawned }] }) := by
  obtain ⟨su, dof, td, pol, cl⟩ := wt
  simp only at hnil hsetup
  subst hnil
  simp [watcher.Watcher.start, watcher.doWrapper, chanMake, Open, invoke, hsetup, chanClose]

theorem with_closer_nil {σ : Type} (wt : watcher.Watcher σ) (hnil : wt.closer = .nil)
    (p : IoCloser σ) :
    ({ ({ wt with closer := p } : watcher.Watcher σ) with closer := .nil } : watcher.Watcher σ)
      = wt := by
  obtain ⟨su, dof, td, pol, cl⟩ := wt
  simp only at hnil
  subst hnil
  rfl

theorem running_state {σ : Type} (wt wt1 wt2 : watcher.Watcher σ) (w0 w1 w2 : World σ)
    (n : Nat) (hnil : wt.closer = .nil)
    (hstart : wt.Start w0 = .ok (none, wt1, w1))
    (hrun : wt1.runTask n w1 = .ok (wt2, w2)) :
    ∃ c k d, wt2 = { wt with closer := .closer (some c) } ∧ c.closed = false ∧
      c.stopperClosed = false ∧ c.task.Wrapped w0.chans.length wt.do_ wt.teardown ∧
      RunState (w0.log ++ [Event.call .setup none]) w0.chans.length wt.do_ wt.teardown k d c.task w2 := by
  have hsetup : (wt.setup w0.user).1 = none := by
    cases hs : (wt.setup w0.user).1 with
    | none => rfl
    | some e =>
      have := start_fail wt w0 e hnil hs
      simp only [watcher.Watcher.Start] at hstart
      rw [this] at hstart
      simp at hstart
  obtain ⟨c, w1a, hst, hc, hsc, -, hp, hrs, -, -⟩ := start_ok wt w0 hnil hsetup
  simp only [watcher.Watcher.Start] at hstart
  rw [hst] at hstart
  simp only [Except.ok.injEq, Prod.mk.injEq, true_and] at hstart
  obtain ⟨h1, h2⟩ := hstart
  subst h1 h2
  obtain ⟨c1, w1b, k1, d1, hr, hc1, hsc1, hp1, hrs1⟩ :=
    runN_wrapped w0.chans.length wt.do_ wt.teardown _ n c w1a 0 none hp hrs
  simp only [watcher.Watcher.runTask, hr, Except.ok.injEq, Prod.mk.injEq] at hrun
  obtain ⟨h3, h4⟩ := hrun
  subst h3 h4
  exact ⟨c1, k1, d1, rfl, hc1.trans hc, hsc1.trans hsc, hp1, hrs1⟩

theorem received_error {σ : Type} (L : List Event) (i : Nat) (dof td : σ → Err × σ) (k : Nat)
    (d : Err) (t : Task σ) (w : World σ) (e : GoError) (h : RunState L i dof td k d t w)
    (hmon : ∃ ch, w.chans[i]? = some ch ∧ ch.mon = .received (some e)) : d = some e := by
  obtain ⟨ch, hch, hm⟩ := hmon
  rw [h.1] at hch
  simp only [Option.some.injEq] at hch
  subst hch
  cases d with
  | none => simp [monOf] at hm
  | some x => simpa [monOf] using hm

theorem stop_running {σ : Type} (wt : watcher.Watcher σ) (w : World σ) (c : Closer σ)
    (L : List Event) (i k : Nat) (d : Err) (hnil : wt.closer = .nil)
    (hc : c.closed = false) (hsc : c.stopperClosed = false)
    (hp : c.task.Wrapped i wt.do_ wt.teardown) (h : RunState L i wt.do_ wt.teardown k d c.task w) :
    ∃ cl w1 t, ({ wt with closer := .closer (some c) } : watcher.Watcher σ).stop w
        = .ok (cl, wt, w1) ∧
      w1.log = L ++ doneOk k ++ lastDo d ++ [Event.call .teardown t] ∧ Terminal d t cl ∧
      w1.chans[i]? = some { closed := true, mon := monOf d } ∧ ∃ u, (wt.teardown u).1 = t := by
  obtain ⟨r, c1, w1, t, hcl, hlog, hterm, hch, hu⟩ :=
    close_wrapped i wt.do_ wt.teardown L k d c w hc hsc hp h
  refine ⟨r, w1, t, ?_, hlog, hterm, hch, hu⟩
  simp only [watcher.Watcher.stop, hcl]
  rw [with_closer_nil wt hnil]

theorem runState_finish {σ : Type} (L : List Event) (i j : Nat) (dof td : σ → Err × σ)
    (k : Nat) (d : Err) (t : Task σ) (w : World σ) (hne : i ≠ j)
    (h : RunState L j dof td k d t w) : RunState L j dof td k d t (finishWatcher i w) := by
  obtain ⟨h1, h2, h3⟩ := h
  unfold finishWatcher
  split
  · exact ⟨h1, h2, h3⟩
  · exact ⟨by simpa [List.getElem?_set_ne hne] using h1, h2, h3⟩

theorem terminal_no_teardown_error (d r : Err) (h : Terminal d none r) : r = d := by
  cases d with
  | none => simpa [Terminal] using h
  | some x => simpa [Terminal] using h

theorem chan_index_lt {σ : Type} (w : World σ) (i : Nat) (ch : Chan)
    (h : w.chans[i]? = some ch) : i < w.chans.length := by
  by_contra hge
  rw [List.getElem?_eq_none (by omega)] at h
  exact absurd h (by simp)

/-! ## Theorems: comparing two errors -/

theorem errNe_same_uncomparable (x : GoError) (h : x.typ.comparable = false) :
    errNe (some x) (some x) = .error .uncomparableType := by
  simp [errNe, h]

theorem errNe_right_comparable (a : Err) (y : GoError) (h : y.typ.comparable = true) :
    errNe a (some y) = .ok (decide (a ≠ some y)) := by
  cases a with
  | none => simp [errNe]
  | some x =>
    by_cases ht : x.typ = y.typ
    · simp [errNe, ht, h]
    · have hne : x ≠ y := fun hxy => ht (by rw [hxy])
      simp [errNe, ht, hne]

theorem errNe_left_comparable (x : GoError) (b : Err) (h : x.typ.comparable = true) :
    errNe (some x) b = .ok (decide (some x ≠ b)) := by
  cases b with
  | none => simp [errNe]
  | some y =>
    by_cases ht : x.typ = y.typ
    · rw [ht] at h
      simp [errNe, ht, h]
    · have hne : x ≠ y := fun hxy => ht (by rw [hxy])
      simp [errNe, ht, hne]

theorem errNe_total (a b : Err) :
    errNe a b = .error .uncomparableType ∨ errNe a b = .ok (decide (a ≠ b)) := by
  cases a with
  | none => cases b <;> simp [errNe]
  | some x =>
    cases b with
    | none => simp [errNe]
    | some y =>
      by_cases ht : x.typ = y.typ
      · cases hc : y.typ.comparable
        · left; simp [errNe, ht, hc]
        · right; simp [errNe, ht, hc]
      · have hne : x ≠ y := fun hxy => ht (by rw [hxy])
        right; simp [errNe, ht, hne]

theorem differs_right_comparable (cl : Err) (e : GoError) (h : e.typ.comparable = true) :
    (if cl ≠ none then errNe cl (some e) else .ok false)
      = .ok (decide (cl ≠ none ∧ cl ≠ some e)) := by
  by_cases hcl : cl = none
  · simp [hcl]
  · simp [hcl, errNe_right_comparable cl e h]

/-! ## Theorems: the supervisors -/

/-- C5: in package `watcher`, `Start` on a watcher that owns a handle returns
`ErrAlreadyStarted` and changes neither the watcher (the owned handle included)
nor the world (no callback runs); `Stop` on a watcher that owns no handle returns
`ErrAlreadyStopped` and changes neither the watcher nor the world; `Stop` on a
watcher that owns a handle returns the result of `Close` on that handle and
leaves the watcher without a handle.  The field `closer` holds at most one
handle, and `Start` never replaces one it holds. -/
theorem start_stop_guards {σ : Type} (wt : watcher.Watcher σ) (w : World σ) :
    (∀ c, wt.closer = .closer (some c) →
      wt.Start w = .ok (some watcher.ErrAlreadyStarted, wt, w)) ∧
    (wt.closer = .nil → wt.Stop w = .ok (some watcher.ErrAlreadyStopped, wt, w)) ∧
    (∀ c r c1 w1, wt.closer = .closer (some c) → c.Close w = .ok (r, c1, w1) →
      ∃ wt1, wt.Stop w = .ok (r, wt1, w1) ∧ wt1.closer = .nil ∧
        wt1 = { wt with closer := .nil }) := by
  refine ⟨?_, ?_, ?_⟩
  · intro c h
    simp [watcher.Watcher.Start, watcher.Watcher.start, h]
  · intro h
    simp [watcher.Watcher.Stop, watcher.Watcher.stop, h]
  · intro c r c1 w1 h hcl
    exact ⟨{ wt with closer := .nil },
      by simp [watcher.Watcher.Stop, watcher.Watcher.stop, h, hcl], rfl, rfl⟩

theorem start_stop_guards_witness :
    ∃ wt1 w1 c r c1 w2,
      (watcher.New sampleOk sampleDo sampleOk none).Start sampleWorld = .ok (none, wt1, w1) ∧
      wt1.closer = .closer (some c) ∧ c.Close w1 = .ok (r, c1, w2) ∧
      wt1.Start w1 = .ok (some watcher.ErrAlreadyStarted, wt1, w1) ∧
      (∃ wt2, wt1.Stop w1 = .ok (r, wt2, w2) ∧ wt2.closer = .nil ∧
        wt2 = { wt1 with closer := .nil }) ∧
      (watcher.New sampleOk sampleDo sampleOk none).Stop sampleWorld
        = .ok (some watcher.ErrAlreadyStopped, watcher.New sampleOk sampleDo sampleOk none,
            sampleWorld) :=
  ⟨_, _, _, _, _, _, rfl, rfl, rfl,
    (start_stop_guards _ _).1 _ rfl,
    (start_stop_guards _ _).2.2 _ _ _ _ rfl rfl,
    (start_stop_guards (watcher.New sampleOk sampleDo sampleOk none) sampleWorld).2.1 rfl⟩

/-- C6: in package `watcher`, for a watcher that owns no handle and whose
setup returns the non-nil error `e` whenever it is called: `Start` returns `e`
itself and leaves the watcher unchanged (no handle); only setup has been
invoked; the channel made for the attempt is closed and no `watcher` goroutine
was spawned for it.  A second `Start` invokes setup again and returns `e`
again, and a following `Stop` returns `ErrAlreadyStopped`. -/
theorem watcher_setup_fails {σ : Type} (wt : watcher.Watcher σ) (w0 : World σ) (e : GoError)
    (hnil : wt.closer = .nil) (hsetup : ∀ u, (wt.setup u).1 = some e) :
    ∃ w1 w2,
      wt.Start w0 = .ok (some e, wt, w1) ∧
      w1.log = w0.log ++ [Event.call .setup (some e)] ∧
      w1.chans = w0.chans ++ [{ closed := true, mon := .unspawned }] ∧
      wt.Start w1 = .ok (some e, wt, w2) ∧
      w2.log = w0.log ++ [Event.call .setup (some e), Event.call .setup (some e)] ∧
      w2.chans = w0.chans ++ [{ closed := true, mon := .unspawned },
        { closed := true, mon := .unspawned }] ∧
      wt.Stop w2 = .ok (some watcher.ErrAlreadyStopped, wt, w2) := by
  refine ⟨_, _, start_fail wt w0 e hnil (hsetup _), rfl, rfl,
    start_fail wt _ e hnil (hsetup _), by simp, by simp, ?_⟩
  simp [watcher.Watcher.Stop, watcher.Watcher.stop, hnil]

theorem watcher_setup_fails_witness :
    (watcher.New sampleFail sampleDo sampleOk none).closer = .nil ∧
    (∀ u, ((watcher.New sampleFail sampleDo sampleOk none).setup u).1 = some sampleErr2) ∧
    ∃ w1 w2,
      (watcher.New sampleFail sampleDo sampleOk none).Start sampleWorld
        = .ok (some sampleErr2, watcher.New sampleFail sampleDo sampleOk none, w1) ∧
      w1.log = sampleWorld.log ++ [Event.call .setup (some sampleErr2)] ∧
      w1.chans = sampleWorld.chans ++ [{ closed := true, mon := .unspawned }] ∧
      (watcher.New sampleFail sampleDo sampleOk none).Start w1
        = .ok (some sampleErr2, watcher.New sampleFail sampleDo sampleOk none, w2) ∧
      w2.log = sampleWorld.log
        ++ [Event.call .setup (some sampleErr2), Event.call .setup (some sampleErr2)] ∧
      w2.chans = sampleWorld.chans ++ [{ closed := true, mon := .unspawned },
        { closed := true, mon := .unspawned }] ∧
      (watcher.New sampleFail sampleDo sampleOk none).Stop w2
        = .ok (some watcher.ErrAlreadyStopped, watcher.New sampleFail sampleDo sampleOk none, w2) :=
  ⟨rfl, fun _ => rfl,
    watcher_setup_fails (watcher.New sampleFail sampleDo sampleOk none) sampleWorld sampleErr2 rfl
      (fun _ => rfl)⟩

/-- The root package for arbitrary callbacks: whenever setup fails with `e`,
`Start` returns `e` and leaves in `closer` an interface value holding the nil
`*Closer`; from then on `Start` answers `ErrAlreadyStarted` without running
setup and `Stop` dereferences the nil pointer. -/
theorem root_start_keeps_typed_nil {σ : Type} (su dof td : σ → Err × σ)
    (pol : Option (Handler σ)) (w0 : World σ) (e : GoError)
    (hsetup : (su w0.user).1 = some e) :
    ∃ wt1 w1, (NewWatchdog su dof td pol).Start w0 = .ok (some e, wt1, w1) ∧
      wt1.closer = .closer none ∧
      w1.log = w0.log ++ [Event.call .setup (some e)] ∧
      (∀ w : World σ, wt1.Start w = .ok (some ErrAlreadyStarted, wt1, w)) ∧
      (∀ w : World σ, wt1.Stop w = .error .nilDereference) := by
  refine ⟨{ NewWatchdog su dof td pol with closer := .closer none },
    { user := (su w0.user).2, log := w0.log ++ [Event.call .setup (some e)],
      nextAddr := w0.nextAddr, chans := w0.chans ++ [{ closed := true, mon := .unspawned }] },
    ?_, rfl, rfl, fun w => rfl, fun w => rfl⟩
  simp [Watcher.Start, Watcher.start, NewWatchdog, doWrapper, chanMake, Open, invoke, hsetup,
    chanClose]

/-- C7: in the root package, after `Start` on a watcher built by `NewWatchdog`
whose setup fails with `sampleErr2`, the field `closer` holds an interface value
wrapping the nil `*Closer`, which is not the nil interface: the second `Start`
returns `ErrAlreadyStarted` without invoking setup, and `Stop` dereferences the
nil pointer. -/
theorem root_setup_fail_leaves_typed_nil :
    ∃ wt1 w1,
      (NewWatchdog sampleFail sampleDo sampleOk none).Start sampleWorld
        = .ok (some sampleErr2, wt1, w1) ∧
      wt1.closer = .closer none ∧
      w1.log = [Event.call .setup (some sampleErr2)] ∧
      wt1.Start w1 = .ok (some ErrAlreadyStarted, wt1, w1) ∧
      wt1.Stop w1 = .error .nilDereference :=
  ⟨_, _, rfl, rfl, rfl, rfl, rfl⟩

/-- The resolution without restart, for a `do` error of comparable dynamic type:
a watcher of package `watcher` built by `New` is started, its task goroutine runs
`n` steps, and the `watcher` goroutine of the run has received the `do` error
`e`, whose dynamic type is comparable.  Then the stop inside the resolution
closes the owned handle with some result `cl`; in the run teardown has been
invoked exactly once, after the failing `do`; the record `r` has `Do = e`, no
setup error, and `Teardown = nil` when `cl` is nil or is `e` itself (which is the
case when teardown returned nil).  Whether `New` was given no handler (it then
installs `RestartNever`) or a handler `h` that answers false for `r`, the
resolution ends the same way: the handler is asked once with `r`, setup is not
invoked, the watcher owns no handle, and a following `Stop` returns
`ErrAlreadyStopped`. -/
theorem monitor_no_restart {σ : Type} (su dof td : σ → Err × σ) (pol : Option (Handler σ))
    (w0 : World σ) (n : Nat) (e : GoError) (wt1 wt2 : watcher.Watcher σ) (w1 w2 : World σ)
    (hstart : (watcher.New su dof td pol).Start w0 = .ok (none, wt1, w1))
    (hrun : wt1.runTask n w1 = .ok (wt2, w2))
    (hmon : ∃ ch, w2.chans[w0.chans.length]? = some ch ∧ ch.mon = .received (some e))
    (hcmp : e.typ.comparable = true) :
    ∃ k t cl w3 r,
      wt2.stop w2 = .ok (cl, watcher.New su dof td pol, w3) ∧
      w3.log = w0.log ++ [Event.call .setup none] ++ doneOk k ++ [Event.call .do_ (some e)]
        ++ [Event.call .teardown t] ∧
      (t = none → cl = some e) ∧
      r.Do = some e ∧ r.Setup = none ∧
      (cl = none ∨ cl = some e → r.Teardown = none) ∧
      ∀ h : Handler σ,
        (pol = none ∧ h = watcher.RestartNever) ∨ (pol = some h ∧ (h r w3.user).1 = false) →
        ∃ w4, wt2.watcher w0.chans.length w2 = .ok (watcher.New su dof td pol, w4) ∧
          (watcher.New su dof td pol).closer = .nil ∧
          w4.log = w3.log ++ [Event.policy r false] ∧
          w4.user = (h r w3.user).2 ∧
          (watcher.New su dof td pol).Stop w4
            = .ok (some watcher.ErrAlreadyStopped, watcher.New su dof td pol, w4) := by
  obtain ⟨c, k, d, hwt2, hc, hsc, hp, hrs⟩ :=
    running_state (watcher.New su dof td pol) wt1 wt2 w0 w1 w2 n rfl hstart hrun
  have hd : d = some e := received_error _ _ _ _ _ _ _ _ e hrs hmon
  subst hd
  obtain ⟨cl, w3, t, hstop, hlog, hterm, hch3, -⟩ :=
    stop_running (watcher.New su dof td pol) w2 c _ _ k (some e) rfl hc hsc hp hrs
  rw [← hwt2] at hstop
  obtain ⟨ch, hch, hm⟩ := hmon
  have hlt : w0.chans.length < w3.chans.length := by
    by_contra hge
    rw [List.getElem?_eq_none (by omega)] at hch3
    exact absurd hch3 (by simp)
  obtain ⟨r, hrdef⟩ : ∃ r : WatcherError, r =
      (if cl ≠ none ∧ cl ≠ some e then { Do := some e, Teardown := cl, Setup := none }
       else { Do := some e, Teardown := none, Setup := none }) := ⟨_, rfl⟩
  refine ⟨k, t, cl, w3, r, hstop, by simpa [lastDo] using hlog, ?_, ?_, ?_, ?_, ?_⟩
  · intro ht; subst ht; simpa [Terminal] using hterm
  · rw [hrdef]; split <;> rfl
  · rw [hrdef]; split <;> rfl
  · intro hcases
    rw [hrdef]
    split
    · rename_i hne
      rcases hcases with h1 | h1
      · exact absurd h1 hne.1
      · exact absurd h1 hne.2
    · rfl
  · intro h hh
    have hpol : (watcher.New su dof td pol).restartHandler = some h := by
      rcases hh with ⟨h1, h2⟩ | ⟨h1, -⟩
      · subst h1 h2; rfl
      · subst h1; rfl
    have hans : (h r w3.user).1 = false := by
      rcases hh with ⟨h1, h2⟩ | ⟨-, h2⟩
      · subst h1 h2; rfl
      · exact h2
    refine ⟨finishWatcher w0.chans.length (callHandler h r w3).2, ?_, rfl, ?_, ?_, ?_⟩
    · simp only [watcher.Watcher.watcher, hch, hm, watcher.Watcher.resolve, hstop, hpol,
        differs_right_comparable cl e hcmp, decide_eq_true_eq]
      simp [callHandler, ← hrdef, hans]
    · simp [finishWatcher, callHandler, hch3, hans]
    · simp [finishWatcher, callHandler, hch3]
    · simp [watcher.Watcher.Stop, watcher.Watcher.stop, watcher.New]

theorem monitor_no_restart_witness :
    ∃ wt1 w1 wt2 w2,
      (watcher.New sampleOk sampleDo sampleOk none).Start sampleWorld = .ok (none, wt1, w1) ∧
      wt1.runTask 4 w1 = .ok (wt2, w2) ∧
      (∃ ch, w2.chans[sampleWorld.chans.length]? = some ch ∧
        ch.mon = .received (some sampleErr)) ∧
      (∃ w4, wt2.watcher 0 w2 = .ok (watcher.New sampleOk sampleDo sampleOk none, w4) ∧
        w4.log = [Event.call .setup none, Event.call .do_ none,
          Event.call .do_ (some sampleErr), Event.call .teardown none,
          Event.policy { Do := some sampleErr, Teardown := none, Setup := none } false]) ∧
      ∃ k t cl w3 r,
        wt2.stop w2 = .ok (cl, watcher.New sampleOk sampleDo sampleOk none, w3) ∧
        w3.log = sampleWorld.log ++ [Event.call .setup none] ++ doneOk k
          ++ [Event.call .do_ (some sampleErr)] ++ [Event.call .teardown t] ∧
        (t = none → cl = some sampleErr) ∧
        r.Do = some sampleErr ∧ r.Setup = none ∧
        (cl = none ∨ cl = some sampleErr → r.Teardown = none) ∧
        ∀ h : Handler Nat,
          ((none : Option (Handler Nat)) = none ∧ h = watcher.RestartNever) ∨
            ((none : Option (Handler Nat)) = some h ∧ (h r w3.user).1 = false) →
          ∃ w4, wt2.watcher sampleWorld.chans.length w2
              = .ok (watcher.New sampleOk sampleDo sampleOk none, w4) ∧
            (watcher.New sampleOk sampleDo sampleOk none).closer = .nil ∧
            w4.log = w3.log ++ [Event.policy r false] ∧
            w4.user = (h r w3.user).2 ∧
            (watcher.New sampleOk sampleDo sampleOk none).Stop w4
              = .ok (some watcher.ErrAlreadyStopped,
                  watcher.New sampleOk sampleDo sampleOk none, w4) :=
  ⟨_, _, _, _, rfl, rfl, ⟨_, rfl, rfl⟩, ⟨_, rfl, rfl⟩,
    monitor_no_restart sampleOk sampleDo sampleOk none sampleWorld 4 sampleErr _ _ _ _ rfl rfl
      ⟨_, rfl, rfl⟩ rfl⟩

/-- The restart whose setup fails, for a `do` error of comparable dynamic type:
a watcher of package `watcher` built by `New` with the handler `h` is started,
its task goroutine runs `n` steps, and the `watcher` goroutine of the run has
received the `do` error `e`, whose dynamic type is comparable.  The stop inside
the resolution closes the handle with result `cl` and the first record `r` has
`Do = e`, no setup error, and as `Teardown` either nil or `cl`.  If `h` answers
true for `r` and the setup of the restart then fails with `s`, whatever
`r.Teardown` is: the handler is invoked exactly twice, the second time with `r`
extended by `Setup = s`; no further setup attempt follows whatever the second
answer is; neither `do` nor teardown is invoked for the failed restart, whose
channel is closed with no `watcher` goroutine spawned; the watcher owns no
handle, and a following `Stop` returns `ErrAlreadyStopped`. -/
theorem monitor_restart_setup_fails {σ : Type} (su dof td : σ → Err × σ) (h : Handler σ)
    (w0 : World σ) (n : Nat) (e s : GoError) (wt1 wt2 : watcher.Watcher σ) (w1 w2 : World σ)
    (hstart : (watcher.New su dof td (some h)).Start w0 = .ok (none, wt1, w1))
    (hrun : wt1.runTask n w1 = .ok (wt2, w2))
    (hmon : ∃ ch, w2.chans[w0.chans.length]? = some ch ∧ ch.mon = .received (some e))
    (hcmp : e.typ.comparable = true) :
    ∃ k t cl w3 r,
      wt2.stop w2 = .ok (cl, watcher.New su dof td (some h), w3) ∧
      w3.log = w0.log ++ [Event.call .setup none] ++ doneOk k ++ [Event.call .do_ (some e)]
        ++ [Event.call .teardown t] ∧
      r.Do = some e ∧ r.Setup = none ∧
      r.Teardown = (if cl = none ∨ cl = some e then none else cl) ∧
      ((h r w3.user).1 = true → (su (h r w3.user).2).1 = some s →
        ∃ w4 j, wt2.watcher w0.chans.length w2 = .ok (watcher.New su dof td (some h), w4) ∧
          (watcher.New su dof td (some h)).closer = .nil ∧
          w4.log = w3.log ++ [Event.policy r true, Event.call .setup (some s),
            Event.policy { r with Setup := some s }
              (h { r with Setup := some s } (su (h r w3.user).2).2).1] ∧
          w4.chans.length = j + 1 ∧ w0.chans.length < j ∧
          w4.chans[j]? = some { closed := true, mon := .unspawned } ∧
          (watcher.New su dof td (some h)).Stop w4
            = .ok (some watcher.ErrAlreadyStopped, watcher.New su dof td (some h), w4)) := by
  obtain ⟨c, k, d, hwt2, hc, hsc, hp, hrs⟩ :=
    running_state (watcher.New su dof td (some h)) wt1 wt2 w0 w1 w2 n rfl hstart hrun
  have hd : d = some e := received_error _ _ _ _ _ _ _ _ e hrs hmon
  subst hd
  obtain ⟨cl, w3, t, hstop, hlog, hterm, hch3, -⟩ :=
    stop_running (watcher.New su dof td (some h)) w2 c _ _ k (some e) rfl hc hsc hp hrs
  rw [← hwt2] at hstop
  obtain ⟨ch, hch, hm⟩ := hmon
  have hlt : w0.chans.length < w3.chans.length := chan_index_lt _ _ _ hch3
  obtain ⟨r, hrdef⟩ : ∃ r : WatcherError, r =
      (if cl ≠ none ∧ cl ≠ some e then { Do := some e, Teardown := cl, Setup := none }
       else { Do := some e, Teardown := none, Setup := none }) := ⟨_, rfl⟩
  refine ⟨k, t, cl, w3, r, hstop, by simpa [lastDo] using hlog, ?_, ?_, ?_, ?_⟩
  · rw [hrdef]; split <;> rfl
  · rw [hrdef]; split <;> rfl
  · rw [hrdef]
    by_cases h1 : cl = none
    · simp [h1]
    · by_cases h2 : cl = some e
      · simp [h2]
      · simp [h1, h2]
  · intro htrue hfail
    have hsf := start_fail (watcher.New su dof td (some h)) (callHandler h r w3).2 s rfl hfail
    refine ⟨finishWatcher w0.chans.length
        (callHandler h { r with Setup := some s }
          { user := (su (h r w3.user).2).2,
            log := (callHandler h r w3).2.log ++ [Event.call .setup (some s)],
            nextAddr := w3.nextAddr,
            chans := w3.chans ++ [{ closed := true, mon := .unspawned }] }).2,
      w3.chans.length, ?_, rfl, ?_, ?_, hlt, ?_, ?_⟩
    · simp only [watcher.Watcher.watcher, hch, hm, watcher.Watcher.resolve, hstop,
        differs_right_comparable cl e hcmp, decide_eq_true_eq]
      simp only [watcher.New] at hsf ⊢
      simp [← hrdef, callHandler, htrue] at hsf ⊢
      simp [hsf]
    · simp [finishWatcher, callHandler, List.getElem?_append_left hlt, hch3, htrue]
    · simp [finishWatcher, callHandler, List.getElem?_append_left hlt, hch3]
    · simp only [finishWatcher, callHandler, List.getElem?_append_left hlt, hch3]
      rw [List.getElem?_set_ne (Nat.ne_of_lt hlt)]
      simp
    · simp [watcher.Watcher.Stop, watcher.Watcher.stop, watcher.New]

theorem monitor_restart_setup_fails_witness :
    ∃ wt1 w1 wt2 w2,
      (watcher.New sampleSetupOnce sampleDo sampleFail (some sampleAlways)).Start sampleWorld
        = .ok (none, wt1, w1) ∧
      wt1.runTask 4 w1 = .ok (wt2, w2) ∧
      (∃ ch, w2.chans[sampleWorld.chans.length]? = some ch ∧
        ch.mon = .received (some sampleErr)) ∧
      (∃ w4, wt2.watcher 0 w2
          = .ok (watcher.New sampleSetupOnce sampleDo sampleFail (some sampleAlways), w4) ∧
        w4.log = [Event.call .setup none, Event.call .do_ none,
          Event.call .do_ (some sampleErr), Event.call .teardown (some sampleErr2),
          Event.policy { Do := some sampleErr,
                         Teardown := some ⟨1000, "Test ErrorTeardownError", errorString⟩,
                         Setup := none } true,
          Event.call .setup (some sampleErr2),
          Event.policy { Do := some sampleErr,
                         Teardown := some ⟨1000, "Test ErrorTeardownError", errorString⟩,
                         Setup := some sampleErr2 } true] ∧
        w4.chans = [{ closed := true, mon := .finished }, { closed := true, mon := .unspawned }]) ∧
      ∃ k t cl w3 r,
        wt2.stop w2
          = .ok (cl, watcher.New sampleSetupOnce sampleDo sampleFail (some sampleAlways), w3) ∧
        w3.log = sampleWorld.log ++ [Event.call .setup none] ++ doneOk k
          ++ [Event.call .do_ (some sampleErr)] ++ [Event.call .teardown t] ∧
        r.Do = some sampleErr ∧ r.Setup = none ∧
        r.Teardown = (if cl = none ∨ cl = some sampleErr then none else cl) ∧
        ((sampleAlways r w3.user).1 = true →
          (sampleSetupOnce (sampleAlways r w3.user).2).1 = some sampleErr2 →
          ∃ w4 j, wt2.watcher sampleWorld.chans.length w2
              = .ok (watcher.New sampleSetupOnce sampleDo sampleFail (some sampleAlways), w4) ∧
            (watcher.New sampleSetupOnce sampleDo sampleFail (some sampleAlways)).closer = .nil ∧
            w4.log = w3.log ++ [Event.policy r true, Event.call .setup (some sampleErr2),
              Event.policy { r with Setup := some sampleErr2 }
                (sampleAlways { r with Setup := some sampleErr2 }
                  (sampleSetupOnce (sampleAlways r w3.user).2).2).1] ∧
            w4.chans.length = j + 1 ∧ sampleWorld.chans.length < j ∧
            w4.chans[j]? = some { closed := true, mon := .unspawned } ∧
            (watcher.New sampleSetupOnce sampleDo sampleFail (some sampleAlways)).Stop w4
              = .ok (some watcher.ErrAlreadyStopped,
                  watcher.New sampleSetupOnce sampleDo sampleFail (some sampleAlways), w4)) :=
  ⟨_, _, _, _, rfl, rfl, ⟨_, rfl, rfl⟩, ⟨_, rfl, rfl, rfl⟩,
    monitor_restart_setup_fails sampleSetupOnce sampleDo sampleFail sampleAlways sampleWorld 4
      sampleErr sampleErr2 _ _ _ _ rfl rfl ⟨_, rfl, rfl⟩ rfl⟩

/-! ## Theorems: `Open` followed by `Close` -/

theorem step_counted {σ : Type} (dof td : σ → Err × σ) (L : List Event) (b : Bool)
    (k : Nat) (d : Err) (t : Task σ) (w : World σ) (hp : t.Plain dof td)
    (h : PlainState L k d t w.log) :
    ∃ t1 w1 k1 d1, t.step b w = .ok (t1, w1) ∧ t1.Plain dof td ∧
      PlainState L k1 d1 t1 w1.log ∧
      (b = true → k1 = k ∧ d1 = d ∧ (t1.dist + 1 = t.dist ∨ (t.dist = 0 ∧ t1.dist = 0))) ∧
      doCalls k d ≤ doCalls k1 d1 ∧
      (t.pc = .setup → t1.pc = .loop ∧ t1.doing = true ∧ k1 = 0 ∧ d1 = none) ∧
      (b = false → t.pc = .loop → t.doing = true → 1 ≤ doCalls k1 d1) := by
  obtain ⟨s, dw, tdn, pc, err, doing⟩ := t
  obtain ⟨h1, h2, h3⟩ := hp
  simp only at h1 h2 h3
  subst h1 h2 h3
  cases pc
  · -- setup
    simp only [PlainState] at h
    obtain ⟨he, hd, hdn, hk, hl⟩ := h
    subst he hd hdn hk
    refine ⟨_, w, 0, none, by simp [Task.step, DoesNothing]; rfl, ⟨rfl, rfl, rfl⟩, ?_, ?_,
      Nat.le_refl _, fun _ => ⟨rfl, rfl, rfl, rfl⟩, by simp⟩
    · simp [PlainState, doneOk, hl]
    · simp [Task.dist]
  · exact absurd h (by simp [PlainState])
  · -- loop
    cases doing
    · simp [PlainState] at h
      refine ⟨_, w, k, d, by simp [Task.step]; rfl, ⟨rfl, rfl, rfl⟩, ?_, ?_,
        Nat.le_refl _, by simp, by simp⟩
      · simpa [PlainState] using h
      · simp [Task.dist]
    · simp [PlainState] at h
      obtain ⟨he, hdn, hk⟩ := h
      subst he hdn
      cases b
      · cases hres : (dof w.user).1 with
        | none =>
          refine ⟨_, _, k + 1, none, by simp [Task.step, invoke, hres]; exact ⟨rfl, rfl⟩,
            ⟨rfl, rfl, rfl⟩, ?_, by simp, by simp [doCalls, lastDo], by simp,
            by simp [doCalls, lastDo]⟩
          simp [PlainState, hk, doneOk, List.replicate_succ']
        | some x =>
          refine ⟨_, _, k, some x, by simp [Task.step, invoke, hres]; exact ⟨rfl, rfl⟩,
            ⟨rfl, rfl, rfl⟩, ?_, by simp, by simp [doCalls, lastDo], by simp,
            by simp [doCalls, lastDo]⟩
          simp [PlainState, hk, lastDo]
      · refine ⟨_, w, k, none, by simp [Task.step]; rfl, ⟨rfl, rfl, rfl⟩, ?_, ?_,
          Nat.le_refl _, by simp, by simp⟩
        · simp [PlainState, hk, lastDo]
        · simp [Task.dist]
  · -- teardown
    simp only [PlainState] at h
    obtain ⟨he, hk⟩ := h
    subst he
    cases hres : (td w.user).1 with
    | none =>
      refine ⟨_, _, k, err, by simp [Task.step, invoke, hres]; exact ⟨rfl, rfl⟩,
        ⟨rfl, rfl, rfl⟩, ?_, by simp [Task.dist], Nat.le_refl _, by simp, by simp⟩
      exact ⟨none, by simp [hk]⟩
    | some y =>
      cases err with
      | none =>
        refine ⟨_, _, k, none, by simp [Task.step, invoke, hres]; exact ⟨rfl, rfl⟩,
          ⟨rfl, rfl, rfl⟩, ?_, by simp [Task.dist], Nat.le_refl _, by simp, by simp⟩
        exact ⟨some y, by simp [hk]⟩
      | some x =>
        refine ⟨_, _, k, some x, by simp [Task.step, invoke, hres]; exact ⟨rfl, rfl⟩,
          ⟨rfl, rfl, rfl⟩, ?_, by simp [Task.dist], Nat.le_refl _, by simp, by simp⟩
        exact ⟨some y, by simp [hk, errorsNew]⟩
  · -- send
    exact ⟨_, w, k, d, rfl, ⟨rfl, rfl, rfl⟩, h, by simp [Task.dist], Nat.le_refl _, by simp,
      by simp⟩
  · exact absurd h (by simp [PlainState])

theorem runN_counted {σ : Type} (dof td : σ → Err × σ) (L : List Event) (n : Nat) :
    ∀ (c : Closer σ) (w : World σ) (k : Nat) (d : Err), c.task.Plain dof td →
    PlainState L k d c.task w.log →
    ∃ c1 w1 k1 d1, c.runN n w = .ok (c1, w1) ∧ c1.closed = c.closed ∧
      c1.stopperClosed = c.stopperClosed ∧ c1.task.Plain dof td ∧
      PlainState L k1 d1 c1.task w1.log ∧ doCalls k d ≤ doCalls k1 d1 := by
  induction n with
  | zero => intro c w k d hp h; exact ⟨c, w, k, d, rfl, rfl, rfl, hp, h, Nat.le_refl _⟩
  | succ n ih =>
    intro c w k d hp h
    obtain ⟨t1, w1, k1, d1, hs, hp1, h1, -, hle, -, -⟩ :=
      step_counted dof td L c.stopperClosed k d c.task w hp h
    obtain ⟨c2, w2, k2, d2, hr, hc, hsc, hp2, h2, hle2⟩ := ih { c with task := t1 } w1 k1 d1 hp1 h1
    exact ⟨c2, w2, k2, d2, by simp [Closer.runN, Closer.run, hs, hr], hc, hsc, hp2, h2,
      Nat.le_trans hle hle2⟩

theorem recv_counted {σ : Type} (dof td : σ → Err × σ) (L : List Event) (k : Nat) (d : Err)
    (fuel : Nat) :
    ∀ (c : Closer σ) (w : World σ), c.task.dist < fuel → c.stopperClosed = true →
    c.task.Plain dof td → PlainState L k d c.task w.log →
    ∃ r c1 w1 tr, Closer.recvStopping fuel c w = .ok (r, c1, w1) ∧
      w1.log = L ++ doneOk k ++ lastDo d ++ [Event.call .teardown tr] := by
  induction fuel with
  | zero => intro c w hd; omega
  | succ fuel ih =>
    intro c w hd hsc hp h
    obtain ⟨t1, w1, k1, d1, hs, hp1, h1, hdist, -, -, -⟩ :=
      step_counted dof td L c.stopperClosed k d c.task w hp h
    obtain ⟨hk, hdd, hdist⟩ := hdist hsc
    subst hk hdd
    have hrec := ih { c with task := t1 } w1
    cases hpc : c.task.pc with
    | sendSetup => simp [PlainState, hpc] at h
    | returned => simp [PlainState, hpc] at h
    | send =>
      simp only [PlainState, hpc] at h
      obtain ⟨tr, hlog⟩ := h
      exact ⟨c.task.err, { c with task := { c.task with pc := .returned } }, w, tr,
        by simp [Closer.recvStopping, hpc], hlog⟩
    | setup =>
      have hd0 : c.task.dist = 4 := by simp [Task.dist, hpc]
      obtain ⟨r, c2, w2, tr, hr, hlog⟩ := hrec (by simp; omega) hsc hp1 h1
      exact ⟨r, c2, w2, tr, by simp [Closer.recvStopping, hpc, Closer.run, hs, hr], hlog⟩
    | loop =>
      have hd0 : 2 ≤ c.task.dist := by simp only [Task.dist, hpc]; split <;> omega
      obtain ⟨r, c2, w2, tr, hr, hlog⟩ := hrec (by simp; omega) hsc hp1 h1
      exact ⟨r, c2, w2, tr, by simp [Closer.recvStopping, hpc, Closer.run, hs, hr], hlog⟩
    | teardown =>
      have hd0 : c.task.dist = 1 := by simp [Task.dist, hpc]
      obtain ⟨r, c2, w2, tr, hr, hlog⟩ := hrec (by simp; omega) hsc hp1 h1
      exact ⟨r, c2, w2, tr, by simp [Closer.recvStopping, hpc, Closer.run, hs, hr], hlog⟩

theorem close_counted {σ : Type} (dof td : σ → Err × σ) (L : List Event) (k : Nat) (d : Err)
    (c : Closer σ) (w : World σ) (hc : c.closed = false) (hsc : c.stopperClosed = false)
    (hp : c.task.Plain dof td) (h : PlainState L k d c.task w.log) :
    ∃ r c1 w1 tr, c.Close w = .ok (r, c1, w1) ∧
      w1.log = L ++ doneOk k ++ lastDo d ++ [Event.call .teardown tr] := by
  obtain ⟨r, c1, w1, tr, hr, hlog⟩ :=
    recv_counted dof td L k d closeFuel { c with stopperClosed := true } w
      (by have := dist_le c.task; simp [closeFuel]; omega) rfl hp h
  simp only [hc] at hr
  exact ⟨r, { c1 with closed := true }, w1, tr, by simp [Closer.Close, hc, hsc, hr], hlog⟩

theorem hooks_of_run (k : Nat) (d tr : Err) :
    hooks ([Event.call .setup none] ++ doneOk k ++ lastDo d ++ [Event.call .teardown tr])
      = Hook.setup :: (List.replicate (doCalls k d) Hook.do_ ++ [Hook.teardown]) := by
  have hsplit : ∀ (h : Hook) (e : Err) (l : List Event),
      hooks (Event.call h e :: l) = h :: hooks l := by
    intro h e l; simp [hooks, List.filterMap_cons, Event.hook?]
  have hnil : hooks [] = [] := rfl
  have happ : ∀ l1 l2 : List Event, hooks (l1 ++ l2) = hooks l1 ++ hooks l2 := by
    intro l1 l2; simp [hooks]
  cases d with
  | none => simp [happ, hooks_doneOk, lastDo, hsplit, hnil, doCalls]
  | some x => simp [happ, hooks_doneOk, lastDo, hsplit, hnil, doCalls, List.replicate_succ']

theorem open_counted {σ : Type} (su dof td : σ → Err × σ) (w0 : World σ)
    (hsetup : (su w0.user).1 = none) :
    ∃ c w1, Open (invoke .setup su) (invoke .do_ dof) (invoke .teardown td) w0
        = .ok (some c, none, w1) ∧
      c.closed = false ∧ c.stopperClosed = false ∧ c.task.Plain dof td ∧
      c.task.pc = .setup ∧
      PlainState (w0.log ++ [Event.call .setup none]) 0 none c.task w1.log := by
  refine ⟨_, _, by simp [Open, invoke, hsetup]; exact ⟨rfl, rfl⟩, rfl, rfl, ⟨rfl, rfl, rfl⟩,
    rfl, ?_⟩
  simp [PlainState, newTask]

/-- C11, at inputs where it fails: with callbacks that all return nil, `Close`
called right after `Open` has returned, before the task goroutine has run at
all or when it has only reached the head of its loop, finds the cancellation
signal already raised at the first evaluation of the `select`: the run invokes
setup and teardown and never `do`. -/
theorem close_at_once_skips_do :
    (∃ c w1 r c3 w3,
      Open (invoke .setup sampleOk) (invoke .do_ sampleOk) (invoke .teardown sampleOk)
        sampleWorld = .ok (some c, none, w1) ∧
      c.Close w1 = .ok (r, c3, w3) ∧ r = none ∧
      w3.log = [Event.call .setup none, Event.call .teardown none] ∧
      hooks w3.log = [Hook.setup, Hook.teardown] ∧ (hooks w3.log).count Hook.do_ = 0) ∧
    (∃ c w1 c2 w2 r c3 w3,
      Open (invoke .setup sampleOk) (invoke .do_ sampleOk) (invoke .teardown sampleOk)
        sampleWorld = .ok (some c, none, w1) ∧
      c.runN 1 w1 = .ok (c2, w2) ∧ c2.task.pc = .loop ∧
      c2.Close w2 = .ok (r, c3, w3) ∧ r = none ∧
      w3.log = [Event.call .setup none, Event.call .teardown none] ∧
      (hooks w3.log).count Hook.do_ = 0) :=
  ⟨⟨_, _, _, _, _, rfl, rfl, rfl, rfl, by decide, by decide⟩,
    ⟨_, _, _, _, _, _, _, rfl, rfl, rfl, rfl, rfl, rfl, by decide⟩⟩

/-- C11 as amended: for callbacks whose setup succeeds, `Open` followed by
`Close` after any number `n` of scheduled steps of the task goroutine returns,
and the run has invoked setup once, then `do` some number `m` of times, then
teardown once, in that order.  When the loop has evaluated its `select` at least
once before the cancellation signal was raised (`n` at least two: the goroutine
has run its own setup step and one iteration), `do` has been invoked at least
once; when the signal is already raised at the first evaluation (`n` at most
one), `do` is not invoked at all. -/
theorem open_close_order {σ : Type} (su dof td : σ → Err × σ) (w0 : World σ) (n : Nat)
    (hsetup : (su w0.user).1 = none) :
    ∃ c w1 c2 w2 r c3 w3,
      Open (invoke .setup su) (invoke .do_ dof) (invoke .teardown td) w0
        = .ok (some c, none, w1) ∧
      c.runN n w1 = .ok (c2, w2) ∧
      c2.Close w2 = .ok (r, c3, w3) ∧
      ∃ run m, w3.log = w0.log ++ run ∧
        hooks run = Hook.setup :: (List.replicate m Hook.do_ ++ [Hook.teardown]) ∧
        (n ≤ 1 → m = 0) ∧ (2 ≤ n → 1 ≤ m) := by
  obtain ⟨c, w1, ho, hc, hsc, hp, hpc, hst⟩ := open_counted su dof td w0 hsetup
  -- the first step of the goroutine: its own setup, which does nothing
  obtain ⟨t1, w1a, k1, d1, hs1, hp1, hst1, -, -, hfirst, -⟩ :=
    step_counted dof td _ c.stopperClosed 0 none c.task w1 hp hst
  obtain ⟨hpc1, hdo1, hk1, hd1⟩ := hfirst hpc
  subst hk1 hd1
  -- the second step: the first evaluation of the select, with the signal not raised
  obtain ⟨t2, w2a, k2, d2, hs2, hp2, hst2, -, -, -, hsecond⟩ :=
    step_counted dof td _ false 0 none t1 w1a hp1 hst1
  have hcalls2 : 1 ≤ doCalls k2 d2 := hsecond rfl hpc1 hdo1
  match n with
  | 0 =>
    obtain ⟨r, c3, w3, tr, hcl, hlog⟩ := close_counted dof td _ 0 none c w1 hc hsc hp hst
    refine ⟨c, w1, c, w1, r, c3, w3, ho, rfl, hcl, _, doCalls 0 none,
      by rw [hlog]; simp only [List.append_assoc], hooks_of_run 0 none tr, ?_, ?_⟩
    · intro _; simp [doCalls, lastDo]
    · intro h2; omega
  | 1 =>
    obtain ⟨r, c3, w3, tr, hcl, hlog⟩ :=
      close_counted dof td _ 0 none { c with task := t1 } w1a hc hsc hp1 hst1
    refine ⟨c, w1, { c with task := t1 }, w1a, r, c3, w3, ho,
      by simp [Closer.runN, Closer.run, hs1], hcl, _, doCalls 0 none,
      by rw [hlog]; simp only [List.append_assoc], hooks_of_run 0 none tr, ?_, ?_⟩
    · intro _; simp [doCalls, lastDo]
    · intro h2; omega
  | n + 2 =>
    obtain ⟨c2, w2, k3, d3, hr, hc2, hsc2, hp3, hst3, hle⟩ :=
      runN_counted dof td _ n { c with task := t2 } w2a k2 d2 hp2 hst2
    obtain ⟨r, c3, w3, tr, hcl, hlog⟩ :=
      close_counted dof td _ k3 d3 c2 w2 (hc2.trans hc) (hsc2.trans hsc) hp3 hst3
    refine ⟨c, w1, c2, w2, r, c3, w3, ho, ?_, hcl, _, doCalls k3 d3,
      by rw [hlog]; simp only [List.append_assoc], hooks_of_run k3 d3 tr, ?_, ?_⟩
    · rw [hsc] at hs1 hr
      simp [Closer.runN, Closer.run, hs1, hsc, hs2, hr]
    · intro h1; omega
    · intro _; omega

theorem open_close_order_witness :
    (sampleOk sampleWorld.user).1 = none ∧
    ∃ c w1 c2 w2 r c3 w3,
      Open (invoke .setup sampleOk) (invoke .do_ sampleDo) (invoke .teardown sampleOk) sampleWorld
        = .ok (some c, none, w1) ∧
      c.runN 3 w1 = .ok (c2, w2) ∧
      c2.Close w2 = .ok (r, c3, w3) ∧
      ∃ run m, w3.log = sampleWorld.log ++ run ∧
        hooks run = Hook.setup :: (List.replicate m Hook.do_ ++ [Hook.teardown]) ∧
        (3 ≤ 1 → m = 0) ∧ (2 ≤ 3 → 1 ≤ m) :=
  ⟨rfl, open_close_order sampleOk sampleDo sampleOk sampleWorld 3 rfl⟩

/-! ## Theorems: interleavings of a supervisor -/

theorem chanSend_len {σ : Type} (i : Nat) (v : Err) (w w1 : World σ)
    (h : chanSend i v w = .ok w1) :
    w1.chans.length = w.chans.length ∧ w1.log = w.log ∧ w1.user = w.user := by
  unfold chanSend at h
  split at h
  · exact absurd h (by simp)
  · split at h
    · exact absurd h (by simp)
    · split at h
      · simp only [Except.ok.injEq] at h
        subst h
        simp
      · exact absurd h (by simp)

theorem chanClose_len {σ : Type} (i : Nat) (w w1 : World σ) (h : chanClose i w = .ok w1) :
    w1.chans.length = w.chans.length ∧ w1.log = w.log ∧ w1.user = w.user := by
  unfold chanClose at h
  split at h
  · exact absurd h (by simp)
  · split at h
    · exact absurd h (by simp)
    · simp only [Except.ok.injEq] at h
      subst h
      simp

theorem step_chans_len {σ : Type} (i : Nat) (dof td : σ → Err × σ) (b : Bool)
    (t t1 : Task σ) (w w1 : World σ) (hp : t.Wrapped i dof td)
    (h : t.step b w = .ok (t1, w1)) : w1.chans.length = w.chans.length := by
  obtain ⟨s, dw, tdn, pc, err, doing⟩ := t
  obtain ⟨h1, h2, h3⟩ := hp
  simp only at h1 h2 h3
  subst h1 h2 h3
  cases pc
  · simp [Task.step, DoesNothing] at h
    rw [← h.2]
  · simp [Task.step] at h
    rw [← h.2]
  · cases doing
    · simp [Task.step] at h
      rw [← h.2]
    · cases b
      · simp only [Task.step, watcher.wrappedDo, invoke] at h
        cases hres : (dof w.user).1 with
        | none =>
          simp [hres] at h
          rw [← h.2]
        | some x =>
          simp only [hres] at h
          cases hsend : chanSend i (some x)
              { user := (dof w.user).2, log := w.log ++ [Event.call Hook.do_ (some x)],
                nextAddr := w.nextAddr, chans := w.chans } with
          | error f => simp [hsend] at h
          | ok w2 =>
            simp [hsend] at h
            rw [← h.2]
            exact (chanSend_len _ _ _ _ hsend).1
      · simp [Task.step] at h
        rw [← h.2]
  · simp only [Task.step, watcher.teardownWrapper, invoke] at h
    cases hcl : chanClose i
        { user := (td w.user).2, log := w.log ++ [Event.call Hook.teardown (td w.user).1],
          nextAddr := w.nextAddr, chans := w.chans } with
    | error f => simp [hcl] at h
    | ok w2 =>
      have hlen := (chanClose_len _ _ _ hcl).1
      simp only [hcl] at h
      cases hres : (td w.user).1 with
      | none =>
        simp [hres] at h
        rw [← h.2]; exact hlen
      | some y =>
        cases err with
        | none =>
          simp [hres] at h
          rw [← h.2]; exact hlen
        | some x =>
          simp [hres, errorsNew] at h
          rw [← h.2]; exact hlen
  · simp [Task.step] at h
    rw [← h.2]
  · simp [Task.step] at h
    rw [← h.2]

theorem step_same_code {σ : Type} (b : Bool) (t t1 : Task σ) (w w1 : World σ)
    (h : t.step b w = .ok (t1, w1)) : t.SameCode t1 := by
  unfold Task.step at h
  repeat' split at h
  all_goals first
    | (simp only [Except.ok.injEq, Prod.mk.injEq] at h
       rw [← h.1]
       exact ⟨rfl, rfl, rfl⟩)
    | cases h

theorem run_chans_len {σ : Type} (i : Nat) (dof td : σ → Err × σ) (c c1 : Closer σ)
    (w w1 : World σ) (hp : c.task.Wrapped i dof td) (h : c.run w = .ok (c1, w1)) :
    w1.chans.length = w.chans.length ∧ c1.task.Wrapped i dof td ∧
      c1.closed = c.closed ∧ c1.stopperClosed = c.stopperClosed := by
  unfold Closer.run at h
  cases hs : c.task.step c.stopperClosed w with
  | error f => simp [hs] at h
  | ok p =>
    obtain ⟨t1, w2⟩ := p
    simp only [hs, Except.ok.injEq, Prod.mk.injEq] at h
    obtain ⟨h1, h2⟩ := h
    subst h1 h2
    obtain ⟨g1, g2, g3⟩ := step_same_code _ _ _ _ _ hs
    obtain ⟨p1, p2, p3⟩ := hp
    exact ⟨step_chans_len i dof td _ _ _ _ _ ⟨p1, p2, p3⟩ hs,
      ⟨g1.trans p1, g2.trans p2, g3.trans p3⟩, rfl, rfl⟩

theorem recv_chans_len {σ : Type} (i : Nat) (dof td : σ → Err × σ) (fuel : Nat) :
    ∀ (c c1 : Closer σ) (w w1 : World σ) (r : Err), c.task.Wrapped i dof td →
    Closer.recvStopping fuel c w = .ok (r, c1, w1) → w1.chans.length = w.chans.length := by
  induction fuel with
  | zero => intro c c1 w w1 r _ h; simp [Closer.recvStopping] at h
  | succ fuel ih =>
    intro c c1 w w1 r hp h
    cases hpc : c.task.pc with
    | sendSetup => simp [Closer.recvStopping, hpc] at h; rw [← h.2.2]
    | send => simp [Closer.recvStopping, hpc] at h; rw [← h.2.2]
    | returned => simp [Closer.recvStopping, hpc] at h; rw [← h.2.2]
    | setup =>
      cases hr : c.run w with
      | error f => simp [Closer.recvStopping, hpc, hr] at h
      | ok p =>
        obtain ⟨c2, w2⟩ := p
        simp only [Closer.recvStopping, hpc, hr] at h
        obtain ⟨hl, hp2, -, -⟩ := run_chans_len i dof td c c2 w w2 hp hr
        exact (ih c2 c1 w2 w1 r hp2 h).trans hl
    | loop =>
      cases hr : c.run w with
      | error f => simp [Closer.recvStopping, hpc, hr] at h
      | ok p =>
        obtain ⟨c2, w2⟩ := p
        simp only [Closer.recvStopping, hpc, hr] at h
        obtain ⟨hl, hp2, -, -⟩ := run_chans_len i dof td c c2 w w2 hp hr
        exact (ih c2 c1 w2 w1 r hp2 h).trans hl
    | teardown =>
      cases hr : c.run w with
      | error f => simp [Closer.recvStopping, hpc, hr] at h
      | ok p =>
        obtain ⟨c2, w2⟩ := p
        simp only [Closer.recvStopping, hpc, hr] at h
        obtain ⟨hl, hp2, -, -⟩ := run_chans_len i dof td c c2 w w2 hp hr
        exact (ih c2 c1 w2 w1 r hp2 h).trans hl

theorem close_chans_len {σ : Type} (i : Nat) (dof td : σ → Err × σ) (c c1 : Closer σ)
    (w w1 : World σ) (r : Err) (hp : c.task.Wrapped i dof td)
    (h : c.Close w = .ok (r, c1, w1)) : w1.chans.length = w.chans.length := by
  unfold Closer.Close at h
  split at h
  · simp only [Except.ok.injEq, Prod.mk.injEq] at h
    rw [← h.2.2]
  · split at h
    · exact absurd h (by simp)
    · split at h
      · exact absurd h (by simp)
      · rename_i hrecv
        simp only [Except.ok.injEq, Prod.mk.injEq] at h
        rw [← h.2.2]
        exact recv_chans_len i dof td _ { c with stopperClosed := true } _ _ _ _ hp hrecv

theorem step_owned {σ : Type} (i : Nat) (dof td : σ → Err × σ) (L : List Event)
    (k : Nat) (d : Err) (t : Task σ) (w : World σ) (hp : t.Wrapped i dof td)
    (h : RunState L i dof td k d t w)
    (hg : d = none → t.doing = true ∧ (t.pc = .setup ∨ t.pc = .loop)) :
    ∃ t1 w1 k1 d1, t.step false w = .ok (t1, w1) ∧ t1.Wrapped i dof td ∧
      RunState L i dof td k1 d1 t1 w1 ∧
      (d1 = none → t1.doing = true ∧ (t1.pc = .setup ∨ t1.pc = .loop)) := by
  obtain ⟨s, dw, tdn, pc, err, doing⟩ := t
  obtain ⟨h1, h2, h3⟩ := hp
  simp only at h1 h2 h3
  subst h1 h2 h3
  obtain ⟨hch, hdof, h⟩ := h
  have hlt : i < w.chans.length := chan_index_lt _ _ _ hch
  cases pc
  · -- setup
    simp only at h
    obtain ⟨he, hd, hdn, hk, hl⟩ := h
    subst he hd hdn hk
    refine ⟨_, w, 0, none, by simp [Task.step, DoesNothing]; rfl, ⟨rfl, rfl, rfl⟩,
      ⟨by simpa using hch, hdof, ?_⟩, ?_⟩
    · simp [doneOk, hl]
    · intro _; exact ⟨rfl, Or.inr rfl⟩
  · exact absurd h (by simp)
  · -- loop
    cases doing
    · simp at h
      have hd : d ≠ none := fun hn => by simpa using (hg hn).1
      refine ⟨_, w, k, d, by simp [Task.step]; rfl, ⟨rfl, rfl, rfl⟩,
        ⟨by simpa using hch, hdof, ?_⟩, fun hn => absurd hn hd⟩
      simpa using h
    · simp at h
      obtain ⟨he, hdn, hk⟩ := h
      subst he hdn
      simp [monOf] at hch
      cases hres : (dof w.user).1 with
      | none =>
        refine ⟨_, _, k + 1, none, by
          simp [Task.step, watcher.wrappedDo, invoke, hres]; exact ⟨rfl, rfl⟩,
          ⟨rfl, rfl, rfl⟩, ⟨by simpa [monOf] using hch, hdof, ?_⟩,
          fun _ => ⟨rfl, Or.inr rfl⟩⟩
        simp [hk, doneOk, List.replicate_succ']
      | some x =>
        refine ⟨_, _, k, some x, by
          simp [Task.step, watcher.wrappedDo, invoke, hres, chanSend, hch]
          exact ⟨rfl, rfl⟩,
          ⟨rfl, rfl, rfl⟩, ⟨by simp [monOf, List.getElem?_set_self hlt], ?_, ?_⟩,
          fun hn => absurd hn (by simp)⟩
        · intro y hy; exact ⟨w.user, by rw [hres]; exact hy⟩
        · simp [hk, lastDo]
  · -- teardown
    simp only at h
    obtain ⟨he, hk⟩ := h
    subst he
    have hd : err ≠ none := fun hn => by
      have := (hg hn).2
      simp at this
    obtain ⟨x, hx⟩ : ∃ x, err = some x := Option.ne_none_iff_exists'.mp hd
    subst hx
    simp at hch
    cases hres : (td w.user).1 with
    | none =>
      refine ⟨_, _, k, some x, by
        simp [Task.step, watcher.teardownWrapper, invoke, hres, chanClose, hch]
        exact ⟨rfl, rfl⟩,
        ⟨rfl, rfl, rfl⟩, ⟨by simp [List.getElem?_set_self hlt], hdof, ?_⟩,
        fun hn => absurd hn (by simp)⟩
      exact ⟨none, by simp [hk], by simp [Terminal], w.user, hres⟩
    | some y =>
      refine ⟨_, _, k, some x, by
        simp [Task.step, watcher.teardownWrapper, invoke, hres, chanClose, hch]
        exact ⟨rfl, rfl⟩,
        ⟨rfl, rfl, rfl⟩, ⟨by simp [errorsNew, List.getElem?_set_self hlt], hdof, ?_⟩,
        fun hn => absurd hn (by simp)⟩
      exact ⟨some y, by simp [hk, errorsNew], by simp [Terminal, errorsNew, GoError.Error],
        w.user, hres⟩
  · -- send
    have hd : d ≠ none := fun hn => by
      have := (hg hn).2
      simp at this
    exact ⟨_, w, k, d, rfl, ⟨rfl, rfl, rfl⟩, ⟨hch, hdof, h⟩, fun hn => absurd hn hd⟩
  · exact absurd h (by simp)

theorem stop_owned {σ : Type} (b : watcher.Watcher σ) (c : Closer σ) (w : World σ) (j : Nat)
    (hb : b.closer = .nil) (ho : OwnedAt b c w j) :
    ∃ cl c1 w1, c.Close w = .ok (cl, c1, w1) ∧
      ({ b with closer := .closer (some c) } : watcher.Watcher σ).stop w = .ok (cl, b, w1) ∧
      w1.chans.length = w.chans.length := by
  obtain ⟨hc, hsc, hp, L, k, d, hrs, -⟩ := ho
  obtain ⟨cl, c1, w1, t, hcl, -, -, -, -⟩ :=
    close_wrapped j b.do_ b.teardown L k d c w hc hsc hp hrs
  refine ⟨cl, c1, w1, hcl, ?_, close_chans_len j b.do_ b.teardown c c1 w w1 cl hp hcl⟩
  simp only [watcher.Watcher.stop, hcl]
  rw [with_closer_nil b hb]

theorem start_owned {σ : Type} (b : watcher.Watcher σ) (w : World σ) (hb : b.closer = .nil)
    (hsetup : (b.setup w.user).1 = none) :
    ∃ c w1, b.start w = .ok (none, { b with closer := .closer (some c) }, w1) ∧
      OwnedAt b c w1 w.chans.length ∧ w1.chans.length = w.chans.length + 1 := by
  obtain ⟨c, w1, hst, hc, hsc, hpc, hp, hrs, hchans, -⟩ := start_ok b w hb hsetup
  refine ⟨c, w1, hst, ⟨hc, hsc, hp, _, 0, none, hrs, fun _ => ⟨?_, Or.inl hpc⟩⟩, by simp [hchans]⟩
  have := hrs.2.2
  simp only [hpc] at this
  exact this.2.1

theorem stop_inv {σ : Type} (b wt : watcher.Watcher σ) (w : World σ) (hb : b.closer = .nil)
    (hinv : Inv b wt w) :
    ∃ cl w1, wt.stop w = .ok (cl, b, w1) ∧ w1.chans.length = w.chans.length := by
  rcases hinv with h | ⟨c, j, h, ho, -⟩
  · subst h
    exact ⟨some watcher.ErrAlreadyStopped, w, by simp [watcher.Watcher.stop, hb], rfl⟩
  · subst h
    obtain ⟨cl, c1, w1, -, hstop, hlen⟩ := stop_owned b c w j hb ho
    exact ⟨cl, w1, hstop, hlen⟩

theorem differs_total (cl : Err) (x : GoError) :
    (if cl ≠ none then errNe cl (some x) else .ok false) = .error .uncomparableType ∨
    (if cl ≠ none then errNe cl (some x) else .ok false)
      = .ok (decide (cl ≠ none ∧ cl ≠ some x)) := by
  by_cases hcl : cl = none
  · right; simp [hcl]
  · rcases errNe_total cl (some x) with h | h
    · left; simp [hcl, h]
    · right; simp [hcl, h]

theorem resolve_inv {σ : Type} (b wt : watcher.Watcher σ) (w : World σ) (x : GoError)
    (hb : b.closer = .nil) (hinv : Inv b wt w) :
    wt.resolve (some x) w = .error .uncomparableType ∨
    ∃ wt1 w1, wt.resolve (some x) w = .ok (wt1, w1) ∧ w.chans.length ≤ w1.chans.length ∧
      (wt1 = b ∨ ∃ c j, wt1 = { b with closer := .closer (some c) } ∧ OwnedAt b c w1 j ∧
        w.chans.length ≤ j ∧ j + 1 = w1.chans.length) := by
  obtain ⟨cl, w1, hstop, hlen⟩ := stop_inv b wt w hb hinv
  rcases differs_total cl x with hd | hd
  · left
    simp only [watcher.Watcher.resolve, hstop, hd]
    simp
  right
  obtain ⟨r, hrdef⟩ : ∃ r : WatcherError, r =
      (if cl ≠ none ∧ cl ≠ some x then { Do := some x, Teardown := cl, Setup := none }
       else { Do := some x, Teardown := none, Setup := none }) := ⟨_, rfl⟩
  obtain hrh | ⟨h, hrh⟩ : b.restartHandler = none ∨ ∃ h, b.restartHandler = some h := by
    cases b.restartHandler with
    | none => exact Or.inl rfl
    | some h => exact Or.inr ⟨h, rfl⟩
  · refine ⟨b, w1, ?_, by omega, Or.inl rfl⟩
    simp only [watcher.Watcher.resolve, hstop, hd, decide_eq_true_eq]
    simp [hrh]
  · obtain hans | hans : (h r w1.user).1 = false ∨ (h r w1.user).1 = true := by
      cases (h r w1.user).1 with
      | false => exact Or.inl rfl
      | true => exact Or.inr rfl
    · refine ⟨b, (callHandler h r w1).2, ?_, by simp [callHandler]; omega, Or.inl rfl⟩
      simp only [watcher.Watcher.resolve, hstop, hd, decide_eq_true_eq]
      simp [hrh, ← hrdef, callHandler, hans]
    · obtain hsu | ⟨e, hsu⟩ : (b.setup (callHandler h r w1).2.user).1 = none ∨
          ∃ e, (b.setup (callHandler h r w1).2.user).1 = some e := by
        cases (b.setup (callHandler h r w1).2.user).1 with
        | none => exact Or.inl rfl
        | some e => exact Or.inr ⟨e, rfl⟩
      · obtain ⟨c2, w2, hst, ho2, hlen2⟩ := start_owned b (callHandler h r w1).2 hb hsu
        refine ⟨{ b with closer := .closer (some c2) }, w2, ?_, ?_,
          Or.inr ⟨c2, _, rfl, ho2, ?_, hlen2.symm⟩⟩
        · simp only [watcher.Watcher.resolve, hstop, hd, decide_eq_true_eq, hrh, ← hrdef]
          simp [callHandler, hans] at hst ⊢
          simp [hst, hrh]
        · simp [callHandler] at hlen2
          omega
        · simp [callHandler]
          omega
      · have hsf := start_fail b (callHandler h r w1).2 e hb hsu
        refine ⟨b, (callHandler h { r with Setup := some e }
            { user := (b.setup (callHandler h r w1).2.user).2,
              log := (callHandler h r w1).2.log ++ [Event.call .setup (some e)],
              nextAddr := (callHandler h r w1).2.nextAddr,
              chans := (callHandler h r w1).2.chans
                ++ [{ closed := true, mon := .unspawned }] }).2, ?_, ?_, Or.inl rfl⟩
        · simp only [watcher.Watcher.resolve, hstop, hd, decide_eq_true_eq, hrh, ← hrdef]
          simp [callHandler, hans] at hsf ⊢
          simp [hsf]
        · simp [callHandler]
          omega

theorem finishWatcher_len {σ : Type} (i : Nat) (w : World σ) :
    (finishWatcher i w).chans.length = w.chans.length := by
  unfold finishWatcher
  split <;> simp

theorem ownedAt_finish {σ : Type} (b : watcher.Watcher σ) (c : Closer σ) (w : World σ)
    (i j : Nat) (hne : i ≠ j) (ho : OwnedAt b c w j) : OwnedAt b c (finishWatcher i w) j := by
  obtain ⟨hc, hsc, hp, L, k, d, hrs, hg⟩ := ho
  exact ⟨hc, hsc, hp, L, k, d, runState_finish L i j _ _ k d _ w hne hrs, hg⟩

theorem owned_channel_busy {σ : Type} (b : watcher.Watcher σ) (c : Closer σ) (w : World σ)
    (j : Nat) (ch : Chan) (ho : OwnedAt b c w j) (hch : w.chans[j]? = some ch) :
    (ch.mon = .receiving ∧ ch.closed = false) ∨ ∃ x, ch.mon = .received (some x) := by
  obtain ⟨-, -, -, L, k, d, hrs, hg⟩ := ho
  rw [hrs.1] at hch
  simp only [Option.some.injEq] at hch
  subst hch
  cases d with
  | some x => exact Or.inr ⟨x, rfl⟩
  | none =>
    refine Or.inl ⟨rfl, ?_⟩
    obtain ⟨-, hpc⟩ := hg rfl
    rcases hpc with hpc | hpc <;> simp [hpc]

theorem act_inv {σ : Type} (b wt : watcher.Watcher σ) (w : World σ) (a : watcher.Action)
    (hb : b.closer = .nil) (hinv : Inv b wt w) :
    wt.act a w = .error .uncomparableType ∨
    ∃ wt1 w1, wt.act a w = .ok (wt1, w1) ∧ Inv b wt1 w1 := by
  cases a with
  | start =>
    right
    rcases hinv with h | ⟨c, j, h, ho, hj⟩
    · subst h
      obtain hsu | ⟨e, hsu⟩ : (wt.setup w.user).1 = none ∨ ∃ e, (wt.setup w.user).1 = some e := by
        cases (wt.setup w.user).1 with
        | none => exact Or.inl rfl
        | some e => exact Or.inr ⟨e, rfl⟩
      · obtain ⟨c, w1, hst, ho, hlen⟩ := start_owned wt w hb hsu
        exact ⟨_, w1, by simp [watcher.Watcher.act, watcher.Watcher.Start, hst],
          Or.inr ⟨c, _, rfl, ho, hlen.symm⟩⟩
      · have hsf := start_fail wt w e hb hsu
        exact ⟨wt, { user := (wt.setup w.user).2,
                     log := w.log ++ [Event.call .setup (some e)], nextAddr := w.nextAddr,
                     chans := w.chans ++ [{ closed := true, mon := .unspawned }] },
          by simp [watcher.Watcher.act, watcher.Watcher.Start, hsf], Or.inl rfl⟩
    · subst h
      exact ⟨_, w, by simp [watcher.Watcher.act, watcher.Watcher.Start, watcher.Watcher.start],
        Or.inr ⟨c, j, rfl, ho, hj⟩⟩
  | stop =>
    right
    obtain ⟨cl, w1, hstop, -⟩ := stop_inv b wt w hb hinv
    exact ⟨b, w1, by simp [watcher.Watcher.act, watcher.Watcher.Stop, hstop], Or.inl rfl⟩
  | task =>
    right
    rcases hinv with h | ⟨c, j, h, ho, hj⟩
    · subst h
      exact ⟨wt, w, by simp [watcher.Watcher.act, watcher.Watcher.runTask, hb], Or.inl rfl⟩
    · subst h
      obtain ⟨hc, hsc, hp, L, k, d, hrs, hg⟩ := ho
      obtain ⟨t1, w1, k1, d1, hs, hp1, hrs1, hg1⟩ :=
        step_owned j b.do_ b.teardown L k d c.task w hp hrs hg
      have hlen := step_chans_len j b.do_ b.teardown false c.task t1 w w1 hp hs
      refine ⟨{ b with closer := .closer (some { c with task := t1 }) }, w1, ?_,
        Or.inr ⟨{ c with task := t1 }, j, rfl, ⟨hc, hsc, hp1, L, k1, d1, hrs1, hg1⟩,
          by omega⟩⟩
      simp [watcher.Watcher.act, watcher.Watcher.runTask, Closer.runN, Closer.run, hsc, hs]
  | monitor i =>
    have hnone : wt.resolve none w = .ok (wt, w) := by simp [watcher.Watcher.resolve]
    have hfin : ∀ ch, w.chans[i]? = some ch →
        (ch.mon = .received none ∨ (ch.mon = .receiving ∧ ch.closed = true)) →
        Inv b wt (finishWatcher i w) := by
      intro ch hch hcase
      rcases hinv with h | ⟨c, j, h, ho, hj⟩
      · exact Or.inl h
      · refine Or.inr ⟨c, j, h, ownedAt_finish b c w i j ?_ ho,
          by rw [finishWatcher_len]; exact hj⟩
        intro hij
        subst hij
        rcases owned_channel_busy b c w i ch ho hch with ⟨h1, h2⟩ | ⟨x, h1⟩
        · rcases hcase with h3 | ⟨-, h3⟩
          · rw [h1] at h3; exact absurd h3 (by simp)
          · rw [h2] at h3; exact absurd h3 (by simp)
        · rcases hcase with h3 | ⟨h3, -⟩
          · rw [h1] at h3; exact absurd h3 (by simp)
          · rw [h1] at h3; exact absurd h3 (by simp)
    cases hch : w.chans[i]? with
    | none =>
      exact Or.inr ⟨wt, w, by simp [watcher.Watcher.act, watcher.Watcher.watcher, hch], hinv⟩
    | some ch =>
      cases hm : ch.mon with
      | unspawned =>
        exact Or.inr ⟨wt, w,
          by simp [watcher.Watcher.act, watcher.Watcher.watcher, hch, hm], hinv⟩
      | finished =>
        exact Or.inr ⟨wt, w,
          by simp [watcher.Watcher.act, watcher.Watcher.watcher, hch, hm], hinv⟩
      | receiving =>
        cases hcl : ch.closed with
        | false =>
          exact Or.inr ⟨wt, w,
            by simp [watcher.Watcher.act, watcher.Watcher.watcher, hch, hm, hcl], hinv⟩
        | true =>
          exact Or.inr ⟨wt, finishWatcher i w,
            by simp [watcher.Watcher.act, watcher.Watcher.watcher, hch, hm, hcl, hnone],
            hfin ch hch (Or.inr ⟨hm, hcl⟩)⟩
      | received e =>
        cases e with
        | none =>
          exact Or.inr ⟨wt, finishWatcher i w,
            by simp [watcher.Watcher.act, watcher.Watcher.watcher, hch, hm, hnone],
            hfin ch hch (Or.inl hm)⟩
        | some x =>
          rcases resolve_inv b wt w x hb hinv with herr | ⟨wt1, w1, hres, hlen, hcases⟩
          · left
            simp [watcher.Watcher.act, watcher.Watcher.watcher, hch, hm, herr]
          · right
            have hlt : i < w.chans.length := chan_index_lt _ _ _ hch
            refine ⟨wt1, finishWatcher i w1,
              by simp [watcher.Watcher.act, watcher.Watcher.watcher, hch, hm, hres], ?_⟩
            rcases hcases with h | ⟨c, j, h, ho, hj, hj1⟩
            · exact Or.inl h
            · exact Or.inr ⟨c, j, h, ownedAt_finish b c w1 i j (by omega) ho,
                by rw [finishWatcher_len]; exact hj1⟩

/-- Whatever the callbacks, the handler and the interleaving of external `Start`
and `Stop` calls, task steps and `watcher` goroutines, the only fault of a
supervisor that starts without a handle is the panic of the comparison of two
errors of one uncomparable dynamic type inside a resolution: no channel is closed
twice, nothing is sent on a closed channel, and nothing blocks for ever.  Until
then its state stays in `Inv`. -/
theorem exec_inv {σ : Type} (b : watcher.Watcher σ) (hb : b.closer = .nil)
    (sched : List watcher.Action) :
    ∀ (wt : watcher.Watcher σ) (w : World σ), Inv b wt w →
    wt.exec sched w = .error .uncomparableType ∨
    ∃ wt1 w1, wt.exec sched w = .ok (wt1, w1) ∧ Inv b wt1 w1 := by
  induction sched with
  | nil => intro wt w h; exact Or.inr ⟨wt, w, rfl, h⟩
  | cons a rest ih =>
    intro wt w h
    rcases act_inv b wt w a hb h with herr | ⟨wt1, w1, hact, h1⟩
    · left; simp [watcher.Watcher.exec, herr]
    · rcases ih wt1 w1 h1 with herr | ⟨wt2, w2, hex, h2⟩
      · left; simp [watcher.Watcher.exec, hact, herr]
      · exact Or.inr ⟨wt2, w2, by simp [watcher.Watcher.exec, hact, hex], h2⟩

/-- The race lost by the `watcher` goroutine, for arbitrary callbacks and
handler: the goroutine of a run has received the `do` error `e`, an external
`Stop` takes the lock first, closes the run and returns.  When the goroutine
then takes the lock its stop returns `ErrAlreadyStopped`; the comparison with
`e` does not panic, since that value is a pointer; the record gets it as
teardown error unless `e` is that very value, and the handler is consulted with
that record whatever happened before.  On the answer false nothing else is
logged; on the answer true setup is invoked, and when it succeeds the watcher
owns a new handle although `Stop` had returned. -/
theorem monitor_after_stop_consults {σ : Type} (su dof td : σ → Err × σ)
    (pol : Option (Handler σ)) (w0 : World σ) (n : Nat) (e : GoError)
    (wt1 wt2 : watcher.Watcher σ) (w1 w2 : World σ)
    (hstart : (watcher.New su dof td pol).Start w0 = .ok (none, wt1, w1))
    (hrun : wt1.runTask n w1 = .ok (wt2, w2))
    (hmon : ∃ ch, w2.chans[w0.chans.length]? = some ch ∧ ch.mon = .received (some e)) :
    ∃ r w3 h rec,
      wt2.Stop w2 = .ok (r, watcher.New su dof td pol, w3) ∧
      (watcher.New su dof td pol).closer = .nil ∧
      (watcher.New su dof td pol).restartHandler = some h ∧
      rec = { Do := some e,
              Teardown := if e = watcher.ErrAlreadyStopped then none
                else some watcher.ErrAlreadyStopped,
              Setup := none } ∧
      ∃ wt4 w4 tl,
        (watcher.New su dof td pol).watcher w0.chans.length w3 = .ok (wt4, w4) ∧
        w4.log = w3.log ++ Event.policy rec (h rec w3.user).1 :: tl ∧
        ((h rec w3.user).1 = false → tl = [] ∧ wt4 = watcher.New su dof td pol) ∧
        ((h rec w3.user).1 = true →
          ∃ s rest, tl = Event.call .setup s :: rest ∧
            (s = none → rest = [] ∧ ∃ c, wt4.closer = .closer (some c))) := by
  obtain ⟨c, k, d, hwt2, hc, hsc, hp, hrs⟩ :=
    running_state (watcher.New su dof td pol) wt1 wt2 w0 w1 w2 n rfl hstart hrun
  have hd : d = some e := received_error _ _ _ _ _ _ _ _ e hrs hmon
  subst hd
  obtain ⟨cl, w3, t, hstop, -, -, hch3, -⟩ :=
    stop_running (watcher.New su dof td pol) w2 c _ _ k (some e) rfl hc hsc hp hrs
  rw [← hwt2] at hstop
  obtain ⟨h, hh⟩ : ∃ h, (watcher.New su dof td pol).restartHandler = some h := ⟨_, rfl⟩
  obtain ⟨rec, hrec⟩ : ∃ rec : WatcherError, rec =
      { Do := some e,
        Teardown := if e = watcher.ErrAlreadyStopped then none
          else some watcher.ErrAlreadyStopped,
        Setup := none } := ⟨_, rfl⟩
  refine ⟨cl, w3, h, rec, by simpa [watcher.Watcher.Stop] using hstop, rfl, hh, hrec, ?_⟩
  have hnil : (watcher.New su dof td pol).stop w3
      = .ok (some watcher.ErrAlreadyStopped, watcher.New su dof td pol, w3) := by
    simp [watcher.Watcher.stop, watcher.New]
  have hne : errNe (some watcher.ErrAlreadyStopped) (some e)
      = .ok (decide (some watcher.ErrAlreadyStopped ≠ some e)) :=
    errNe_left_comparable _ _ rfl
  have hbuilt : (if decide (some watcher.ErrAlreadyStopped ≠ some e) = true then
          ({ Do := some e, Teardown := some watcher.ErrAlreadyStopped, Setup := none } :
            WatcherError)
        else { Do := some e, Teardown := none, Setup := none }) = rec := by
    rw [hrec]
    by_cases he : e = watcher.ErrAlreadyStopped
    · subst he; simp
    · have he2 : watcher.ErrAlreadyStopped ≠ e := fun hh => he hh.symm
      simp [he, he2]
  have hres : (watcher.New su dof td pol).resolve (some e) w3 =
      (if !(callHandler h rec w3).1 then .ok (watcher.New su dof td pol, (callHandler h rec w3).2)
       else match (watcher.New su dof td pol).start (callHandler h rec w3).2 with
        | .error f => .error f
        | .ok (setupErr, wt5, w5) =>
          if setupErr ≠ none then
            .ok (wt5, (callHandler h { rec with Setup := setupErr } w5).2)
          else .ok (wt5, w5)) := by
    have hdiff : (if (some watcher.ErrAlreadyStopped : Err) ≠ none then
          errNe (some watcher.ErrAlreadyStopped) (some e) else .ok false)
        = .ok (decide (some watcher.ErrAlreadyStopped ≠ some e)) := by
      rw [if_pos (by simp), hne]
    simp only [watcher.Watcher.resolve, hnil, hh, hdiff, hbuilt]
    rfl
  have hw : (watcher.New su dof td pol).watcher w0.chans.length w3 =
      match (watcher.New su dof td pol).resolve (some e) w3 with
      | .error f => .error f
      | .ok (wt5, w5) => .ok (wt5, finishWatcher w0.chans.length w5) := by
    simp [watcher.Watcher.watcher, hch3, monOf]
  have hflog : ∀ w : World σ, (finishWatcher w0.chans.length w).log = w.log := by
    intro w
    unfold finishWatcher
    split <;> rfl
  rw [hw, hres]
  obtain hans | hans : (h rec w3.user).1 = false ∨ (h rec w3.user).1 = true := by
    cases (h rec w3.user).1 with
    | false => exact Or.inl rfl
    | true => exact Or.inr rfl
  · refine ⟨watcher.New su dof td pol, finishWatcher w0.chans.length (callHandler h rec w3).2,
      [], by simp [callHandler, hans], ?_, fun _ => ⟨rfl, rfl⟩, fun hh2 => ?_⟩
    · rw [hflog]; simp [callHandler]
    · rw [hans] at hh2; exact absurd hh2 (by simp)
  · obtain hsu | ⟨s, hsu⟩ : (su (callHandler h rec w3).2.user).1 = none ∨
        ∃ s, (su (callHandler h rec w3).2.user).1 = some s := by
      cases (su (callHandler h rec w3).2.user).1 with
      | none => exact Or.inl rfl
      | some s => exact Or.inr ⟨s, rfl⟩
    · obtain ⟨c2, w5, hst, -, -, -, -, -, -, hlog5⟩ :=
        start_ok (watcher.New su dof td pol) (callHandler h rec w3).2 rfl hsu
      refine ⟨{ watcher.New su dof td pol with closer := .closer (some c2) },
        finishWatcher w0.chans.length w5, [Event.call .setup none],
        by simp [callHandler, hans] at hst ⊢; simp [hst], ?_,
        fun hh2 => ?_, fun _ => ⟨none, [], rfl, fun _ => ⟨rfl, c2, rfl⟩⟩⟩
      · rw [hflog, hlog5]; simp [callHandler, hans]
      · rw [hans] at hh2; exact absurd hh2 (by simp)
    · have hsf := start_fail (watcher.New su dof td pol) (callHandler h rec w3).2 s rfl hsu
      refine ⟨watcher.New su dof td pol, finishWatcher w0.chans.length
          (callHandler h { rec with Setup := some s }
            { user := (su (callHandler h rec w3).2.user).2,
              log := (callHandler h rec w3).2.log ++ [Event.call .setup (some s)],
              nextAddr := (callHandler h rec w3).2.nextAddr,
              chans := (callHandler h rec w3).2.chans
                ++ [{ closed := true, mon := .unspawned }] }).2,
        [Event.call .setup (some s),
          Event.policy { rec with Setup := some s }
            (h { rec with Setup := some s } (su (callHandler h rec w3).2.user).2).1],
        by simp [callHandler, hans] at hsf ⊢; simp [hsf]; rfl, ?_,
        fun hh2 => ?_, fun _ => ⟨some s, _, rfl, fun hs => absurd hs (by simp)⟩⟩
      · rw [hflog]; simp [callHandler, hans]
      · rw [hans] at hh2; exact absurd hh2 (by simp)

/-- C12, at an input where it fails: a watcher built by `New` with a handler that
always answers true is started; `do` fails with `sampleErr` and the `watcher`
goroutine of the run receives it; an external `Stop` takes the lock first, closes
the run and returns `sampleErr`, leaving the watcher without a handle.  When the
goroutine then takes the lock, its stop returns `ErrAlreadyStopped`, it consults
the handler with that value recorded as the teardown error, and on the answer
true it runs setup and starts a new run. -/
theorem monitor_after_stop_consults_and_restarts :
    ∃ wt1 w1 wt2 w2 wt3 w3 wt4 w4 c,
      (watcher.New sampleOk sampleDo sampleOk (some sampleAlways)).Start sampleWorld
        = .ok (none, wt1, w1) ∧
      wt1.runTask 3 w1 = .ok (wt2, w2) ∧
      w2.chans = [{ closed := false, mon := .received (some sampleErr) }] ∧
      wt2.Stop w2 = .ok (some sampleErr, wt3, w3) ∧ wt3.closer = .nil ∧
      w3.log = [Event.call .setup none, Event.call .do_ none,
        Event.call .do_ (some sampleErr), Event.call .teardown none] ∧
      wt3.watcher 0 w3 = .ok (wt4, w4) ∧
      w4.log = w3.log ++
        [Event.policy { Do := some sampleErr, Teardown := some watcher.ErrAlreadyStopped,
                        Setup := none } true,
         Event.call .setup none] ∧
      wt4.closer = .closer (some c) ∧ c.closed = false ∧ c.stopperClosed = false ∧
      w4.chans = [{ closed := true, mon := .finished }, { closed := false, mon := .receiving }] :=
  ⟨_, _, _, _, _, _, _, _, _, rfl, rfl, rfl, rfl, rfl, rfl, rfl, rfl, rfl, rfl, rfl, rfl⟩

/-- The same race followed by an external `Start`, with the handler `RestartOnDo`
of the package: the `watcher` goroutine of the first run, taking the lock after
`Stop` and `Start` have returned, closes the handle of the second run (its
teardown is invoked and its channel closed although its `do` never failed) and
starts a third one. -/
theorem stale_monitor_closes_later_run :
    ∃ wt1 w1 wt2 w2 wt3 w3 wt4 w4 wt5 w5 wt6 w6 c,
      (watcher.New sampleOk sampleDoOnce sampleOk (some watcher.RestartOnDo)).Start sampleWorld
        = .ok (none, wt1, w1) ∧
      wt1.runTask 3 w1 = .ok (wt2, w2) ∧
      wt2.Stop w2 = .ok (some sampleErr, wt3, w3) ∧
      wt3.Start w3 = .ok (none, wt4, w4) ∧
      wt4.runTask 2 w4 = .ok (wt5, w5) ∧
      w5.chans = [{ closed := true, mon := .received (some sampleErr) },
        { closed := false, mon := .receiving }] ∧
      wt5.watcher 0 w5 = .ok (wt6, w6) ∧
      w6.log = w5.log ++
        [Event.call .teardown none,
         Event.policy { Do := some sampleErr, Teardown := none, Setup := none } true,
         Event.call .setup none] ∧
      wt6.closer = .closer (some c) ∧ c.task.pc = .setup ∧
      w6.chans = [{ closed := true, mon := .finished }, { closed := true, mon := .receiving },
        { closed := false, mon := .receiving }] :=
  ⟨_, _, _, _, _, _, _, _, _, _, _, _, _, rfl, rfl, rfl, rfl, rfl, rfl, rfl, rfl, rfl, rfl, rfl⟩


/-! ## Theorems: the comparison inside the resolution -/

theorem runState_failed_log {σ : Type} (L : List Event) (i : Nat) (dof td : σ → Err × σ)
    (k : Nat) (e : GoError) (t : Task σ) (w : World σ)
    (htd : ∀ u, (td u).1 = none) (h : RunState L i dof td k (some e) t w) :
    w.log = L ++ doneOk k ++ [Event.call .do_ (some e)] ∨
    w.log = L ++ doneOk k ++ [Event.call .do_ (some e), Event.call .teardown none] := by
  obtain ⟨-, -, h3⟩ := h
  cases hpc : t.pc with
  | setup => simp [hpc] at h3
  | sendSetup => simp [hpc] at h3
  | returned => simp [hpc] at h3
  | loop =>
    simp only [hpc] at h3
    cases hdo : t.doing with
    | true => simp [hdo] at h3
    | false =>
      simp only [hdo] at h3
      left
      simpa [lastDo] using h3.2
  | teardown =>
    simp only [hpc] at h3
    left
    simpa [lastDo] using h3.2
  | send =>
    simp only [hpc] at h3
    obtain ⟨tr, hlog, -, u, hu⟩ := h3
    have htr : tr = none := by rw [← hu]; exact htd u
    subst htr
    right
    simpa [lastDo] using hlog

/-- Whatever the callbacks and the handler: when the `do` error `e` that the
`watcher` goroutine has received is of an uncomparable dynamic type and teardown
returns nil, the stop of the resolution returns `e` itself and the comparison
`teardownErr != doingErr` panics; the handler is not reached. -/
theorem resolution_panics {σ : Type} (su dof td : σ → Err × σ) (pol : Option (Handler σ))
    (w0 : World σ) (n : Nat) (e : GoError) (wt1 wt2 : watcher.Watcher σ) (w1 w2 : World σ)
    (htd : ∀ u, (td u).1 = none)
    (hstart : (watcher.New su dof td pol).Start w0 = .ok (none, wt1, w1))
    (hrun : wt1.runTask n w1 = .ok (wt2, w2))
    (hmon : ∃ ch, w2.chans[w0.chans.length]? = some ch ∧ ch.mon = .received (some e))
    (hcmp : e.typ.comparable = false) :
    (∃ w3, wt2.stop w2 = .ok (some e, watcher.New su dof td pol, w3)) ∧
    wt2.watcher w0.chans.length w2 = .error .uncomparableType := by
  obtain ⟨c, k, d, hwt2, hc, hsc, hp, hrs⟩ :=
    running_state (watcher.New su dof td pol) wt1 wt2 w0 w1 w2 n rfl hstart hrun
  have hd : d = some e := received_error _ _ _ _ _ _ _ _ e hrs hmon
  subst hd
  obtain ⟨cl, w3, t, hstop, -, hterm, -, u, hu⟩ :=
    stop_running (watcher.New su dof td pol) w2 c _ _ k (some e) rfl hc hsc hp hrs
  rw [← hwt2] at hstop
  have ht : t = none := by rw [← hu]; exact htd u
  subst ht
  have hcl : cl = some e := terminal_no_teardown_error _ _ hterm
  subst hcl
  obtain ⟨ch, hch, hm⟩ := hmon
  refine ⟨⟨w3, hstop⟩, ?_⟩
  simp only [watcher.Watcher.watcher, hch, hm, watcher.Watcher.resolve, hstop]
  simp [errNe_same_uncomparable e hcmp]

/-- C8, at an input where it fails: a watcher built by `New` without a restart
policy, whose setup and teardown succeed and whose `do` fails with
`sampleSliceErr`, a value of a slice type.  After `Start` and three steps of the
task goroutine the `watcher` goroutine of the run has received that error.  The
stop of its resolution closes the handle (teardown is invoked) and returns the
`do` error itself; the comparison `teardownErr != doingErr` then panics, so the
resolution builds no record and never reaches the handler, and the panic of a
goroutine ends the process.  The same happens with a handler that answers
false. -/
theorem monitor_panics_on_uncomparable_error :
    ∃ wt1 w1 wt2 w2 w3,
      (watcher.New sampleOk sampleDoSlice sampleOk none).Start sampleWorld = .ok (none, wt1, w1) ∧
      wt1.runTask 3 w1 = .ok (wt2, w2) ∧
      w2.log = [Event.call .setup none, Event.call .do_ none,
        Event.call .do_ (some sampleSliceErr)] ∧
      w2.chans = [{ closed := false, mon := .received (some sampleSliceErr) }] ∧
      wt2.stop w2
        = .ok (some sampleSliceErr, watcher.New sampleOk sampleDoSlice sampleOk none, w3) ∧
      w3.log = w2.log ++ [Event.call .teardown none] ∧
      wt2.watcher 0 w2 = .error .uncomparableType ∧
      ∃ wt5 w5 wt6 w6,
        (watcher.New sampleOk sampleDoSlice sampleOk (some watcher.RestartNever)).Start sampleWorld
          = .ok (none, wt5, w5) ∧
        wt5.runTask 3 w5 = .ok (wt6, w6) ∧
        wt6.watcher 0 w6 = .error .uncomparableType :=
  ⟨_, _, _, _, _, rfl, rfl, rfl, rfl, rfl, rfl, rfl, _, _, _, _, rfl, rfl, rfl⟩

/-- C10, at an input where it fails: a watcher built by `New` with a handler
that always answers true, a setup that succeeds only the first time, a teardown
that succeeds and a `do` that fails with `sampleSliceErr`, a value of a slice
type.  After `Start` and three steps of the task goroutine the `watcher`
goroutine of the run has received that error.  The stop of its resolution
returns the `do` error itself and the comparison `teardownErr != doingErr`
panics: the handler, which would answer true, is invoked not twice but never,
and the setup of the restart, which would fail, is not attempted. -/
theorem restart_episode_panics_on_uncomparable_error :
    ∃ wt1 w1 wt2 w2 w3,
      (watcher.New sampleSetupOnce sampleDoSlice sampleOk (some sampleAlways)).Start sampleWorld
        = .ok (none, wt1, w1) ∧
      wt1.runTask 3 w1 = .ok (wt2, w2) ∧
      w2.chans = [{ closed := false, mon := .received (some sampleSliceErr) }] ∧
      wt2.stop w2 = .ok (some sampleSliceErr,
        watcher.New sampleSetupOnce sampleDoSlice sampleOk (some sampleAlways), w3) ∧
      w3.log = [Event.call .setup none, Event.call .do_ none,
        Event.call .do_ (some sampleSliceErr), Event.call .teardown none] ∧
      (sampleAlways { Do := some sampleSliceErr, Teardown := none, Setup := none } w3.user).1
        = true ∧
      (sampleSetupOnce
        (sampleAlways { Do := some sampleSliceErr, Teardown := none, Setup := none } w3.user).2).1
        = some sampleErr2 ∧
      wt2.watcher 0 w2 = .error .uncomparableType :=
  ⟨_, _, _, _, _, rfl, rfl, rfl, rfl, rfl, rfl, rfl, rfl⟩

/-! ## Theorems: the automatic restart -/

/-- C9, at an input where it fails: a watcher built by `New` with `RestartOnDo`,
whose setup and teardown always succeed and whose `do` fails first with
`sampleErr` and then with the value of the package variable `ErrAlreadyStopped`.
The `watcher` goroutine resolves the first failure while the watcher owns the
run: the handler receives `{Do: sampleErr, Teardown: nil, Setup: nil}`, answers
true, setup is invoked again and the watcher owns a fresh handle with a fresh
`watcher` goroutine.  After two steps of the new task goroutine the watcher
still owns that handle, and `Stop` returns `ErrAlreadyStopped`: the terminal
result of the new run, which is the error its `do` returned. -/
theorem stop_after_restart_returns_do_error :
    (∀ u, (sampleOk u).1 = none) ∧
    ∃ wt1 w1 wt2 w2 wt3 w3 wt4 w4 wt5 w5 c,
      (watcher.New sampleOk sampleDoSentinel sampleOk (some watcher.RestartOnDo)).Start
        sampleWorld = .ok (none, wt1, w1) ∧
      wt1.runTask 2 w1 = .ok (wt2, w2) ∧
      w2.chans = [{ closed := false, mon := .received (some sampleErr) }] ∧
      wt2.watcher 0 w2 = .ok (wt3, w3) ∧
      w3.log = [Event.call .setup none, Event.call .do_ (some sampleErr),
        Event.call .teardown none,
        Event.policy { Do := some sampleErr, Teardown := none, Setup := none } true,
        Event.call .setup none] ∧
      w3.chans = [{ closed := true, mon := .finished }, { closed := false, mon := .receiving }] ∧
      wt3.runTask 2 w3 = .ok (wt4, w4) ∧
      wt4.closer = .closer (some c) ∧ c.closed = false ∧
      wt4.Stop w4 = .ok (some watcher.ErrAlreadyStopped, wt5, w5) ∧
      wt5.closer = .nil ∧
      w5.log = w3.log ++ [Event.call .do_ (some watcher.ErrAlreadyStopped),
        Event.call .teardown none] :=
  ⟨fun _ => rfl, _, _, _, _, _, _, _, _, _, _, _,
    rfl, rfl, rfl, rfl, rfl, rfl, rfl, rfl, rfl, rfl, rfl, rfl⟩

/-- C9 as amended.  A watcher of package `watcher` is built by `New` with
`RestartOnDo` and callbacks whose setup and teardown always return nil.  After
any interleaving `sched` of external `Start` and `Stop` calls, task steps and
`watcher` goroutines it owns a handle, and the `watcher` goroutine of the owned
run, whose channel `i` is the one made last, has received the `do` error `e`, of
a dynamic type whose values compare without panic.  Then the resolution of that goroutine returns; the
teardown of the failed run has been invoked once, after the failing `do`; the
handler is asked once, with the record `{Do: e, Teardown: nil, Setup: nil}`, and
answers true; setup is invoked again; afterwards the watcher owns a fresh handle
(not closed, cancellation not raised, task goroutine at its start) whose failure
channel is a new one, open, with its own `watcher` goroutine parked at its
receive, while the goroutine of the old run has finished.  After any number `m`
of further steps of the new task goroutine the watcher still owns the handle, so
`Stop` does not answer from its no-handle guard: it returns what `Close` on the
new handle returns, teardown of the new run is invoked, and the watcher is left
without a handle.  That result is the terminal result of the new run: the error
`d2` of its failing `do`, nil when `do` has not failed again; it is
`ErrAlreadyStopped` only when `do` itself returns that very value. -/
theorem monitor_restarts {σ : Type} (su dof td : σ → Err × σ) (sched : List watcher.Action)
    (w0 : World σ) (e : GoError) (wt2 : watcher.Watcher σ) (w2 : World σ) (c : Closer σ)
    (i : Nat)
    (hsu : ∀ u, (su u).1 = none) (htd : ∀ u, (td u).1 = none)
    (hreach : (watcher.New su dof td (some watcher.RestartOnDo)).exec sched w0 = .ok (wt2, w2))
    (hown : wt2.closer = .closer (some c))
    (hlast : i + 1 = w2.chans.length)
    (hmon : ∃ ch, w2.chans[i]? = some ch ∧ ch.mon = .received (some e))
    (hcmp : e.typ.comparable = true) :
    ∃ pre c3 wt3 w3,
      wt2.watcher i w2 = .ok (wt3, w3) ∧
      (w2.log = pre ++ [Event.call .do_ (some e)] ∨
        w2.log = pre ++ [Event.call .do_ (some e), Event.call .teardown none]) ∧
      w3.log = pre ++ [Event.call .do_ (some e), Event.call .teardown none,
        Event.policy { Do := some e, Teardown := none, Setup := none } true,
        Event.call .setup none] ∧
      wt3.closer = .closer (some c3) ∧ c3.closed = false ∧ c3.stopperClosed = false ∧
      c3.task.pc = .setup ∧
      w3.chans[i]? = some { closed := true, mon := .finished } ∧
      w3.chans.length = i + 2 ∧
      w3.chans[i + 1]? = some { closed := false, mon := .receiving } ∧
      ∀ m, ∃ wt4 w4 r wt5 w5 k2 d2 c4 c5,
        wt3.runTask m w3 = .ok (wt4, w4) ∧
        wt4.closer = .closer (some c4) ∧ c4.Close w4 = .ok (r, c5, w5) ∧
        wt4.Stop w4 = .ok (r, wt5, w5) ∧ wt5.closer = .nil ∧
        w5.log = w3.log ++ doneOk k2 ++ lastDo d2 ++ [Event.call .teardown none] ∧
        r = d2 ∧
        (r = some watcher.ErrAlreadyStopped →
          ∃ u, (dof u).1 = some watcher.ErrAlreadyStopped) := by
  rcases exec_inv (watcher.New su dof td (some watcher.RestartOnDo)) rfl sched _ w0 (Or.inl rfl)
    with herr | ⟨wta, wa, hex, hinv⟩
  · rw [hreach] at herr
    exact absurd herr (by simp)
  rw [hreach] at hex
  simp only [Except.ok.injEq, Prod.mk.injEq] at hex
  obtain ⟨h1, h2⟩ := hex
  subst h1 h2
  rcases hinv with h | ⟨ca, j, h, ho, hj⟩
  · rw [h] at hown
    exact absurd hown (by simp [watcher.New])
  have hcc : ca = c := by
    rw [h] at hown
    simpa using hown
  subst hcc
  have hij : j = i := by omega
  subst hij
  obtain ⟨hc, hsc, hp, L, k, d, hrs, -⟩ := ho
  have hd : d = some e := received_error _ _ _ _ _ _ _ _ e hrs hmon
  subst hd
  have hlogs := runState_failed_log L j _ _ k e _ _ htd hrs
  obtain ⟨cl, w3, t, hstop, hlog, hterm, hch3, u, hu⟩ :=
    stop_running (watcher.New su dof td (some watcher.RestartOnDo)) w2 ca L j k (some e) rfl
      hc hsc hp hrs
  rw [← h] at hstop
  have ht : t = none := by rw [← hu]; exact htd u
  subst ht
  have hcl : cl = some e := terminal_no_teardown_error _ _ hterm
  subst hcl
  obtain ⟨cl0, c1, w3a, hclose, hstop2, hlen3⟩ :=
    stop_owned (watcher.New su dof td (some watcher.RestartOnDo)) ca w2 j rfl
      ⟨hc, hsc, hp, L, k, some e, hrs, fun hh => absurd hh (by simp)⟩
  rw [← h, hstop] at hstop2
  simp only [Except.ok.injEq, Prod.mk.injEq, true_and] at hstop2
  obtain ⟨-, hw3⟩ := hstop2
  subst hw3
  obtain ⟨ch, hch, hm⟩ := hmon
  obtain ⟨c2, w4, hst, hc2, hsc2, hpc2, hp2, hrs2, hchans4, hlog4⟩ :=
    start_ok (watcher.New su dof td (some watcher.RestartOnDo))
      (callHandler watcher.RestartOnDo { Do := some e, Teardown := none, Setup := none } w3).2
      rfl (hsu _)
  have hres : wt2.watcher j w2
      = .ok ({ watcher.New su dof td (some watcher.RestartOnDo) with
                closer := .closer (some c2) }, finishWatcher j w4) := by
    simp only [watcher.Watcher.watcher, hch, hm, watcher.Watcher.resolve, hstop,
      differs_right_comparable (some e) e hcmp, decide_eq_true_eq]
    simp [watcher.New, callHandler, watcher.RestartOnDo]
    simp [watcher.New, callHandler, watcher.RestartOnDo] at hst
    simp [hst]
  have hlt : j < w3.chans.length := chan_index_lt _ _ _ hch3
  have hw4i : w4.chans[j]? = some { closed := true, mon := monOf (some e) } := by
    rw [hchans4]
    simp only [callHandler]
    rw [List.getElem?_append_left hlt]
    exact hch3
  refine ⟨L ++ doneOk k, c2, _, _, hres, ?_, ?_, rfl, hc2, hsc2, hpc2, ?_, ?_, ?_, ?_⟩
  · simpa [List.append_assoc] using hlogs
  · simp [finishWatcher, hw4i, hlog4, callHandler, hlog, lastDo, watcher.RestartOnDo]
  · simp [finishWatcher, hw4i, List.getElem?_set_self (chan_index_lt _ _ _ hw4i)]
  · simp only [finishWatcher, hw4i]
    simp [hchans4, callHandler]
    omega
  · simp only [finishWatcher, hw4i]
    rw [List.getElem?_set_ne (by omega), hchans4]
    simp [callHandler]
    have : j + 1 = w3.chans.length := by omega
    simp [this]
  · intro m
    have hj4 : j ≠ (callHandler watcher.RestartOnDo
        { Do := some e, Teardown := none, Setup := none } w3).2.chans.length := by
      simp [callHandler]; omega
    have hrs3 := runState_finish _ j _ _ _ _ _ _ _ hj4 hrs2
    obtain ⟨c3, w5, k2, d2, hr, hc3, hsc3, hp3, hrs4⟩ :=
      runN_wrapped _ _ _ _ m c2 (finishWatcher j w4) 0 none hp2 hrs3
    obtain ⟨cl2, c4, w6, t2, hclose2, hlog6, hterm2, -, u2, hu2⟩ :=
      close_wrapped _ _ _ _ k2 d2 c3 w5 (hc3.trans hc2) (hsc3.trans hsc2) hp3 hrs4
    have ht2 : t2 = none := by rw [← hu2]; exact htd u2
    subst ht2
    have hcl2 : cl2 = d2 := terminal_no_teardown_error _ _ hterm2
    subst hcl2
    refine ⟨{ watcher.New su dof td (some watcher.RestartOnDo) with
                closer := .closer (some c3) }, w5, cl2,
      watcher.New su dof td (some watcher.RestartOnDo), w6, k2, cl2, c3, c4,
      by simp [watcher.Watcher.runTask, hr], rfl, hclose2,
      by simp [watcher.Watcher.Stop, watcher.Watcher.stop, hclose2]; rfl, rfl, ?_, rfl, ?_⟩
    · rw [hlog6]
      simp [finishWatcher, hw4i, hlog4, callHandler]
    · intro hbad
      exact hrs4.2.1 _ hbad

theorem monitor_restarts_witness :
    (∀ u, (sampleOk u).1 = none) ∧
    ∃ wt2 w2 c,
      (watcher.New sampleOk sampleDoOnce sampleOk (some watcher.RestartOnDo)).exec
        [watcher.Action.start, watcher.Action.task, watcher.Action.start, watcher.Action.task,
          watcher.Action.task] sampleWorld = .ok (wt2, w2) ∧
      wt2.closer = .closer (some c) ∧
      0 + 1 = w2.chans.length ∧
      (∃ ch, w2.chans[0]? = some ch ∧ ch.mon = .received (some sampleErr)) ∧
      sampleErr.typ.comparable = true ∧
      (∃ wt3 w3 wt4 w4 wt5 w5, wt2.watcher 0 w2 = .ok (wt3, w3) ∧
        wt3.runTask 3 w3 = .ok (wt4, w4) ∧ wt4.Stop w4 = .ok (none, wt5, w5) ∧
        w5.log = [Event.call .setup none, Event.call .do_ none,
          Event.call .do_ (some sampleErr), Event.call .teardown none,
          Event.policy { Do := some sampleErr, Teardown := none, Setup := none } true,
          Event.call .setup none, Event.call .do_ none, Event.call .do_ none,
          Event.call .teardown none]) ∧
      ∃ pre c3 wt3 w3,
        wt2.watcher 0 w2 = .ok (wt3, w3) ∧
        (w2.log = pre ++ [Event.call .do_ (some sampleErr)] ∨
          w2.log = pre ++ [Event.call .do_ (some sampleErr), Event.call .teardown none]) ∧
        w3.log = pre ++ [Event.call .do_ (some sampleErr), Event.call .teardown none,
          Event.policy { Do := some sampleErr, Teardown := none, Setup := none } true,
          Event.call .setup none] ∧
        wt3.closer = .closer (some c3) ∧ c3.closed = false ∧ c3.stopperClosed = false ∧
        c3.task.pc = .setup ∧
        w3.chans[0]? = some { closed := true, mon := .finished } ∧
        w3.chans.length = 0 + 2 ∧
        w3.chans[0 + 1]? = some { closed := false, mon := .receiving } ∧
        ∀ m, ∃ wt4 w4 r wt5 w5 k2 d2 c4 c5,
          wt3.runTask m w3 = .ok (wt4, w4) ∧
          wt4.closer = .closer (some c4) ∧ c4.Close w4 = .ok (r, c5, w5) ∧
          wt4.Stop w4 = .ok (r, wt5, w5) ∧ wt5.closer = .nil ∧
          w5.log = w3.log ++ doneOk k2 ++ lastDo d2 ++ [Event.call .teardown none] ∧
          r = d2 ∧
          (r = some watcher.ErrAlreadyStopped →
            ∃ u, (sampleDoOnce u).1 = some watcher.ErrAlreadyStopped) :=
  ⟨fun _ => rfl, _, _, _, rfl, rfl, rfl, ⟨_, rfl, rfl⟩, rfl,
    ⟨_, _, _, _, _, _, rfl, rfl, rfl, rfl⟩,
    monitor_restarts sampleOk sampleDoOnce sampleOk
      [watcher.Action.start, watcher.Action.task, watcher.Action.start, watcher.Action.task,
        watcher.Action.task] sampleWorld sampleErr _ _ _ 0
      (fun _ => rfl) (fun _ => rfl) rfl rfl rfl ⟨_, rfl, rfl⟩ rfl⟩

end Stoppable
